import Mathlib

/-!
Session management API of the eRPC `Rpc` class

A shallow embedding of `src/rpc_impl/rpc_sm_api.cc` (`Rpc::create_session` and
`Rpc::destroy_session`) together with theorems about the two functions.

Modelling conventions

* A `Session *` is an address into an object store (`Rpc.heap`); the null
  pointer is `none : Option SessionPtr`.  `new Session` takes the next unused
  address, `delete` marks the address as released.  Dereferencing a released or
  unallocated address is a fault (`Fault.invalid_pointer`).
* `session_vec` is a `std::vector<Session *>`: a list of possibly-null
  pointers.
* `assert(c)` is a check that ends the call with `Fault.assertion_failed` when
  `c` is false.
* C strings are Lean strings (the bytes before the terminator); `strcmp(a, b)
  == 0` is equality and `strlen` is the byte length.
* `erpc_dprintf` only writes a diagnostic and is left out.
* Constants whose declarations are not part of the translated file are the
  fields of `Constants`.
-/

namespace ERpc

/-! ## Data model -/

/-- Compile-time constants used by `create_session`; their declarations live
in a header, so they are parameters of the development. -/
structure Constants where
  kMaxFabDevPorts : Nat
  kMaxHostnameLen : Nat
  kMaxSessionsPerThread : Nat
  deriving DecidableEq, Repr

/-- The enumeration `Session::Role`. -/
inductive Role where
  | kClient
  | kServer
  deriving DecidableEq, Repr

/-- The enumeration `SessionState`, with the five cases of the `switch` in
`destroy_session`. -/
inductive SessionState where
  | kConnectInProgress
  | kConnected
  | kDisconnectInProgress
  | kDisconnected
  | kError
  deriving DecidableEq, Repr

/-- The struct `SessionMetadata`: one side of a session.  The three fields
that `create_session` leaves unassigned for the server side (`session_num`,
`start_seq`, `routing_info`, the lines commented out with `= ??`) are
optional; `none` is "not assigned by this code". -/
structure SessionMetadata where
  transport_type : Nat
  hostname : String
  app_tid : Nat
  fdev_port_index : Nat
  session_num : Option Nat
  start_seq : Option Nat
  routing_info : Option Nat
  deriving DecidableEq, Repr

/-- The class `Session`. -/
structure Session where
  role : Role
  state : SessionState
  client : SessionMetadata
  server : SessionMetadata
  deriving DecidableEq, Repr

/-- Address of a `Session` object. -/
abbrev SessionPtr := Nat

/-- Modelled from the spec: the enumeration `SmPktType` is declared outside the
translated file; "packet type ∈ {ConnectReq, ConnectResp, DisconnectReq,
DisconnectResp}". -/
inductive SmPktType where
  | kConnectReq
  | kConnectResp
  | kDisconnectReq
  | kDisconnectResp
  deriving DecidableEq, Repr

/-- Modelled from the spec: the enumeration `SmErrType` is declared outside the
translated file; "error type ∈ {NoError, ...}".  The error codes other than
`kNoError` are kept as numbers. -/
inductive SmErrType where
  | kNoError
  | kOther (code : Nat)
  deriving DecidableEq, Repr

/-- Modelled from the spec: the packet struct is declared outside the
translated file; its logical fields are the packet type, the error type and the
metadata of both endpoints. -/
structure SmPkt where
  pkt_type : SmPktType
  err_type : SmErrType
  client : SessionMetadata
  server : SessionMetadata
  deriving DecidableEq, Repr

/-- The part of an `Rpc` object that the session management API reads and
writes.  `hostname` is `nexus->hostname`; `transport_type` and `routing_info`
are what `transport->transport_type` and `transport->fill_routing_info` give;
`heap` is the store of `Session` objects (`none` at a released address);
`sent` is the sequence of packets handed to the control transport, oldest
first. -/
structure Rpc where
  hostname : String
  app_tid : Nat
  transport_type : Nat
  routing_info : Nat
  fdev_port_vec : List Nat
  session_vec : List (Option SessionPtr)
  in_flight_vec : List SessionPtr
  heap : List (Option Session)
  sent : List SmPkt
  deriving DecidableEq, Repr

/-- Ways in which a call can end without returning. -/
inductive Fault where
  | assertion_failed
  | invalid_pointer
  deriving DecidableEq, Repr

/-! ## Memory operations -/

/-- Read through a session pointer: `some` for a live object, `none` for a
released or unallocated address. -/
def Rpc.deref (s : Rpc) (p : SessionPtr) : Option Session :=
  match s.heap[p]? with
  | some (some sess) => some sess
  | _ => none

/-- The expression `new Session(...)`: the object is placed at the next unused
address, which is returned. -/
def Rpc.alloc (s : Rpc) (sess : Session) : SessionPtr × Rpc :=
  (s.heap.length, { s with heap := s.heap ++ [some sess] })

/-- The statement `delete session`: the address is marked as released.  No
other field of the `Rpc` is touched. -/
def Rpc.delete (s : Rpc) (p : SessionPtr) : Rpc :=
  { s with heap := s.heap.set p none }

/-- Assignment to a field of the object behind a pointer. -/
def Rpc.store (s : Rpc) (p : SessionPtr) (sess : Session) : Rpc :=
  { s with heap := s.heap.set p (some sess) }

/-- The function `strlen`: number of bytes before the terminator. -/
def strlen (str : String) : Nat := str.utf8ByteSize

/-! ## Helpers of the `Rpc` class that are called by the API -/

/-- Modelled from the spec: `is_fdev_port_managed` is not part of the
translated file; "a port this runtime instance manages" is membership in the
list of managed ports. -/
def is_fdev_port_managed (s : Rpc) (fdev_port_index : Nat) : Bool :=
  decide (fdev_port_index ∈ s.fdev_port_vec)

/-- Modelled from the spec: `is_session_managed` is not part of the translated
file; "the session must be one this table owns" is that the pointer sits in a
slot of the session table. -/
def is_session_managed (s : Rpc) (p : SessionPtr) : Bool :=
  decide (some p ∈ s.session_vec)

/-- Modelled from the spec: `is_in_flight` is not part of the translated file;
it is membership in the in-flight registry. -/
def is_in_flight (s : Rpc) (p : SessionPtr) : Bool :=
  decide (p ∈ s.in_flight_vec)

/-- Modelled from the spec: `add_to_in_flight` is not part of the translated
file; "entries are added when a request is sent": one entry for the session is
appended to the registry. -/
def add_to_in_flight (s : Rpc) (p : SessionPtr) : Rpc :=
  { s with in_flight_vec := s.in_flight_vec ++ [p] }

/-- Modelled from the spec: `remove_from_in_flight` is not part of the
translated file; the entries of the session are removed from the registry. -/
def remove_from_in_flight (s : Rpc) (p : SessionPtr) : Rpc :=
  { s with in_flight_vec := s.in_flight_vec.filter (fun q => decide (q ≠ p)) }

/-- The packet of the given type built from a session: no error, and the
metadata of both endpoints copied from the session. -/
def sm_pkt_of (t : SmPktType) (sess : Session) : SmPkt :=
  { pkt_type := t, err_type := SmErrType.kNoError,
    client := sess.client, server := sess.server }

/-- Modelled from the spec: `send_connect_req_one` is not part of the
translated file; it "hands a ConnectReq packet to the control-message
transport".  Reading the session through a bad pointer is a fault. -/
def send_connect_req_one (s : Rpc) (p : SessionPtr) : Except Fault Rpc :=
  match s.deref p with
  | none => Except.error Fault.invalid_pointer
  | some sess =>
    Except.ok { s with sent := s.sent ++ [sm_pkt_of SmPktType.kConnectReq sess] }

/-- Modelled from the spec: `send_disconnect_req_one` is not part of the
translated file; it hands a `DisconnectReq` packet for the session to the
control transport. -/
def send_disconnect_req_one (s : Rpc) (p : SessionPtr) : Except Fault Rpc :=
  match s.deref p with
  | none => Except.error Fault.invalid_pointer
  | some sess =>
    Except.ok { s with sent := s.sent ++ [sm_pkt_of SmPktType.kDisconnectReq sess] }

/-- Modelled from the spec: the constructor `Session(role, state)` is not part
of the translated file; it sets the role and the state, and every metadata
field is unassigned until `create_session` fills it. -/
def Session.new (role : Role) (state : SessionState) : Session :=
  let blank : SessionMetadata :=
    { transport_type := 0, hostname := "", app_tid := 0, fdev_port_index := 0,
      session_num := none, start_seq := none, routing_info := none }
  { role := role, state := state, client := blank, server := blank }

/-! ## `Rpc::create_session` -/

/-- The loop over `session_vec` in `create_session` (lines 60-77), run over the
remaining slots.  `ok true` is the `return nullptr` inside the loop, `ok false`
is leaving the loop at its end. -/
def create_session_scan (s : Rpc) (rem_hostname : String) (rem_app_tid : Nat) :
    List (Option SessionPtr) → Except Fault Bool
  | [] => Except.ok false
  | none :: rest => create_session_scan s rem_hostname rem_app_tid rest
  | some existing_session :: rest =>
    match s.deref existing_session with
    | none => Except.error Fault.invalid_pointer
    | some existing =>
      if existing.server.hostname = rem_hostname ∧ existing.server.app_tid = rem_app_tid then
        if existing.role = Role.kClient then Except.ok true
        else Except.error Fault.assertion_failed
      else create_session_scan s rem_hostname rem_app_tid rest

/-- The session object that `create_session` builds (lines 87-111).
`start_seq` is the value returned by `generate_start_seq()`. -/
def create_session_object (s : Rpc) (start_seq : Nat) (local_fdev_port_index : Nat)
    (rem_hostname : String) (rem_app_tid rem_fdev_port_index : Nat) : Session :=
  let session := Session.new Role.kClient SessionState.kConnectInProgress
  let client_metadata : SessionMetadata :=
    { session.client with
      transport_type := s.transport_type
      hostname := s.hostname
      app_tid := s.app_tid
      fdev_port_index := local_fdev_port_index
      session_num := some (s.session_vec.length % 2 ^ 32)
      start_seq := some start_seq
      routing_info := some s.routing_info }
  let server_metadata : SessionMetadata :=
    { session.server with
      transport_type := s.transport_type
      hostname := rem_hostname
      app_tid := rem_app_tid
      fdev_port_index := rem_fdev_port_index }
  { session with client := client_metadata, server := server_metadata }

/-- The function `Rpc::create_session`.  The result is the returned pointer
(`none` for `nullptr`) and the `Rpc` after the call.  `start_seq` is the value
that `generate_start_seq()` returns in this call. -/
def create_session (K : Constants) (s : Rpc) (start_seq : Nat)
    (local_fdev_port_index : Nat) (rem_hostname : Option String)
    (rem_app_tid rem_fdev_port_index : Nat) : Except Fault (Option SessionPtr × Rpc) :=
  if local_fdev_port_index ≥ K.kMaxFabDevPorts then Except.ok (none, s)
  else if rem_fdev_port_index ≥ K.kMaxFabDevPorts then Except.ok (none, s)
  else if !is_fdev_port_managed s local_fdev_port_index then Except.ok (none, s)
  else
    match rem_hostname with
    | none => Except.ok (none, s)
    | some hostname =>
      if strlen hostname > K.kMaxHostnameLen then Except.ok (none, s)
      else if hostname = s.hostname ∧ rem_app_tid = s.app_tid then Except.ok (none, s)
      else
        match create_session_scan s hostname rem_app_tid s.session_vec with
        | Except.error e => Except.error e
        | Except.ok true => Except.ok (none, s)
        | Except.ok false =>
          if s.session_vec.length ≥ K.kMaxSessionsPerThread then Except.ok (none, s)
          else
            let (session, s1) :=
              s.alloc (create_session_object s start_seq local_fdev_port_index
                hostname rem_app_tid rem_fdev_port_index)
            let s2 := { s1 with session_vec := s1.session_vec ++ [some session] }
            let s3 := add_to_in_flight s2 session
            match send_connect_req_one s3 session with
            | Except.error e => Except.error e
            | Except.ok s4 => Except.ok (some session, s4)

/-! ## `Rpc::destroy_session` -/

/-- The body of `case SessionState::kConnected:` (lines 137-141), which the
`kConnectInProgress` case falls through to. -/
def destroy_session_connected (s : Rpc) (p : SessionPtr) (sess : Session) :
    Except Fault Rpc :=
  let s1 := s.store p { sess with state := SessionState.kDisconnectInProgress }
  let s2 := add_to_in_flight s1 p
  send_disconnect_req_one s2 p

/-- The function `Rpc::destroy_session`. -/
def destroy_session (s : Rpc) (session : Option SessionPtr) : Except Fault Rpc :=
  match session with
  | none => Except.error Fault.assertion_failed
  | some p =>
    if !is_session_managed s p then Except.error Fault.assertion_failed
    else
      match s.deref p with
      | none => Except.error Fault.invalid_pointer
      | some sess =>
        if sess.role ≠ Role.kClient then Except.error Fault.assertion_failed
        else
          match sess.state with
          | SessionState.kConnectInProgress =>
            if !is_in_flight s p then Except.error Fault.assertion_failed
            else destroy_session_connected (remove_from_in_flight s p) p sess
          | SessionState.kConnected => destroy_session_connected s p sess
          | SessionState.kDisconnectInProgress =>
            if !is_in_flight s p then Except.error Fault.assertion_failed
            else Except.ok s
          | SessionState.kDisconnected => Except.ok (s.delete p)
          | SessionState.kError => Except.ok (s.delete p)

/-! ## Sequences of API calls -/

/-- One call of the API: `create_session` with its arguments (and the value
`generate_start_seq()` returns in it), or `destroy_session` with its handle. -/
inductive Call where
  | create (start_seq local_fdev_port_index : Nat) (rem_hostname : Option String)
      (rem_app_tid rem_fdev_port_index : Nat)
  | destroy (session : Option SessionPtr)
  deriving DecidableEq, Repr

/-- Run a sequence of API calls from a state.  The result is the final `Rpc`
and the number of `create_session` calls that returned a session; a call that
ends in a fault ends the run. -/
def run (K : Constants) : Rpc → List Call → Except Fault (Rpc × Nat)
  | s, [] => Except.ok (s, 0)
  | s, Call.create q l h t r :: rest =>
    match create_session K s q l h t r with
    | Except.error e => Except.error e
    | Except.ok (ret, s1) =>
      match run K s1 rest with
      | Except.error e => Except.error e
      | Except.ok (s2, n) => Except.ok (s2, if ret.isSome then n + 1 else n)
  | s, Call.destroy p :: rest =>
    match destroy_session s p with
    | Except.error e => Except.error e
    | Except.ok s1 => run K s1 rest

/-! ## Predicates on states -/

/-- A slot of the session table is valid when it is null, or points to a live
session that has role client or, with role server, has this `Rpc` as its
server endpoint. -/
def slot_valid (s : Rpc) (slot : Option SessionPtr) : Bool :=
  match slot with
  | none => true
  | some p =>
    match s.deref p with
    | none => false
    | some sess =>
      decide (sess.role = Role.kClient) ||
        (decide (sess.server.hostname = s.hostname) && decide (sess.server.app_tid = s.app_tid))

/-- Every slot of the session table is valid. -/
def table_valid (s : Rpc) : Bool := s.session_vec.all (slot_valid s)

/-- Some non-empty slot of the session table holds a session whose server
hostname and server id are the given ones. -/
def has_session_to (s : Rpc) (rem_hostname : Option String) (rem_app_tid : Nat) : Prop :=
  ∃ (i : Nat) (p : SessionPtr) (sess : Session),
    s.session_vec[i]? = some (some p) ∧ s.deref p = some sess ∧
    some sess.server.hostname = rem_hostname ∧ sess.server.app_tid = rem_app_tid

/-- The conditions under which the specification says `create_session` returns
null: a port index out of range, an unmanaged local port, a null or too long
remote hostname, a request to this `Rpc` itself, an existing session to the
requested endpoint, or a full session table. -/
def create_session_rejects (K : Constants) (s : Rpc) (local_fdev_port_index : Nat)
    (rem_hostname : Option String) (rem_app_tid rem_fdev_port_index : Nat) : Prop :=
  local_fdev_port_index ≥ K.kMaxFabDevPorts ∨
  rem_fdev_port_index ≥ K.kMaxFabDevPorts ∨
  is_fdev_port_managed s local_fdev_port_index = false ∨
  (rem_hostname = none ∨ ∃ x, rem_hostname = some x ∧ strlen x > K.kMaxHostnameLen) ∨
  (rem_hostname = some s.hostname ∧ rem_app_tid = s.app_tid) ∨
  has_session_to s rem_hostname rem_app_tid ∨
  s.session_vec.length ≥ K.kMaxSessionsPerThread

/-- The state after a `create_session` call that creates a session: the object
is stored at the next unused address, its pointer is appended to the table and
to the in-flight registry, and its `ConnectReq` is appended to the packets
sent. -/
def create_session_post (s : Rpc) (sess : Session) : Rpc :=
  { s with
    session_vec := s.session_vec ++ [some s.heap.length]
    in_flight_vec := s.in_flight_vec ++ [s.heap.length]
    heap := s.heap ++ [some sess]
    sent := s.sent ++ [sm_pkt_of SmPktType.kConnectReq sess] }

/-- The state after the body of `case SessionState::kConnected:` in
`destroy_session`, for a session `sess` stored at `p`: the state of the session
is `kDisconnectInProgress`, one entry is appended to the in-flight registry and
the `DisconnectReq` of the session is appended to the packets sent. -/
def destroy_session_post (s : Rpc) (p : SessionPtr) (sess : Session) : Rpc :=
  { s with
    in_flight_vec := s.in_flight_vec ++ [p]
    heap := s.heap.set p (some { sess with state := SessionState.kDisconnectInProgress })
    sent := s.sent ++
      [sm_pkt_of SmPktType.kDisconnectReq
        { sess with state := SessionState.kDisconnectInProgress }] }

/-- No two distinct non-empty slots of the session table hold sessions with the
same server hostname and server id. -/
def NoDupServers (s : Rpc) : Prop :=
  ∀ (i j : Nat) (p1 p2 : SessionPtr) (x1 x2 : Session),
    s.session_vec[i]? = some (some p1) → s.session_vec[j]? = some (some p2) →
    s.deref p1 = some x1 → s.deref p2 = some x2 →
    x1.server.hostname = x2.server.hostname → x1.server.app_tid = x2.server.app_tid →
    i = j

/-- A slot is pending when it is null, or points to a live client session whose
state is `kConnectInProgress` or `kDisconnectInProgress`. -/
def slot_pending (s : Rpc) (slot : Option SessionPtr) : Bool :=
  match slot with
  | none => true
  | some p =>
    match s.deref p with
    | none => false
    | some sess =>
      decide (sess.role = Role.kClient) &&
        (decide (sess.state = SessionState.kConnectInProgress) ||
          decide (sess.state = SessionState.kDisconnectInProgress))

/-- Every slot of the session table is pending. -/
def table_pending (s : Rpc) : Bool := s.session_vec.all (slot_pending s)

/-- The call is a `create_session` call. -/
def Call.is_create : Call → Bool
  | Call.create _ _ _ _ _ => true
  | Call.destroy _ => false

/-- The in-flight invariant of the specification: every live session held in
a slot of the table is in the in-flight registry if and only if its state is
`kConnectInProgress` or `kDisconnectInProgress`. -/
def InFlightInv (s : Rpc) : Prop :=
  ∀ (p : SessionPtr) (sess : Session), some p ∈ s.session_vec → s.deref p = some sess →
    (is_in_flight s p = true ↔
      (sess.state = SessionState.kConnectInProgress ∨
        sess.state = SessionState.kDisconnectInProgress))

/-- Every live client-role session held in slot `i` of the table has client
session number `i`. -/
def SessionNumInv (s : Rpc) : Prop :=
  ∀ (i : Nat) (p : SessionPtr) (sess : Session), s.session_vec[i]? = some (some p) →
    s.deref p = some sess → sess.role = Role.kClient → sess.client.session_num = some i

/-- Every live server-role session held in the table has this `Rpc` as its
server endpoint. -/
def ServerRoleOwn (s : Rpc) : Prop :=
  ∀ (p : SessionPtr) (sess : Session), some p ∈ s.session_vec → s.deref p = some sess →
    sess.role = Role.kServer →
    sess.server.hostname = s.hostname ∧ sess.server.app_tid = s.app_tid

/-! ## The connect request handler -/

/-- Modelled from the spec: the comparison of the client metadata of a session
with that of a request is not part of the translated files; the two match when
they have the "same hostname, runtime id, session number, starting sequence
number". -/
def same_client (a b : SessionMetadata) : Bool :=
  decide (a.hostname = b.hostname) && decide (a.app_tid = b.app_tid) &&
    decide (a.session_num = b.session_num) && decide (a.start_seq = b.start_seq)

/-- Modelled from the spec: step 1 of `handle_connect_req_st`, which is not part
of the translated files: "search the Session Table for an existing live
server-role session whose recorded client metadata exactly matches the
request's client metadata".  Empty slots are skipped and reading through a
released pointer is a fault, as in the scan of `create_session`. -/
def find_server_session (s : Rpc) (client : SessionMetadata) :
    List (Option SessionPtr) → Except Fault (Option Session)
  | [] => Except.ok none
  | none :: rest => find_server_session s client rest
  | some p :: rest =>
    match s.deref p with
    | none => Except.error Fault.invalid_pointer
    | some sess =>
      if sess.role = Role.kServer ∧ same_client sess.client client = true then
        Except.ok (some sess)
      else find_server_session s client rest

/-- Modelled from the spec: the `ConnectResp` packet for a request, which is
not part of the translated files: the given error type, the client metadata of
the request and the given server metadata. -/
def connect_resp (req : SmPkt) (err : SmErrType) (server : SessionMetadata) : SmPkt :=
  { pkt_type := SmPktType.kConnectResp, err_type := err, client := req.client,
    server := server }

/-- Modelled from the spec: the server-role session of step 2 of
`handle_connect_req_st`, which is not part of the translated files: state
`kConnected`, "client metadata copied from the request and server metadata
filled using local runtime information (own hostname/id, assigned session
number equal to the new table slot, a freshly generated starting sequence
number, fabric routing info for the requested local port)". -/
def server_session_object (s : Rpc) (start_seq : Nat) (req : SmPkt) : Session :=
  { role := Role.kServer, state := SessionState.kConnected, client := req.client,
    server :=
      { transport_type := s.transport_type, hostname := s.hostname, app_tid := s.app_tid,
        fdev_port_index := req.server.fdev_port_index,
        session_num := some s.session_vec.length, start_seq := some start_seq,
        routing_info := some s.routing_info } }

/-- Modelled from the spec: step 2 of `handle_connect_req_st`, which is not part
of the translated files: the new server-role session is stored and appended to
the table, and "a `ConnectResp` carrying the newly assigned server metadata and
no error" is sent. -/
def accept_conn_req (s : Rpc) (start_seq : Nat) (req : SmPkt) : Rpc :=
  { s with
    session_vec := s.session_vec ++ [some s.heap.length]
    heap := s.heap ++ [some (server_session_object s start_seq req)]
    sent := s.sent ++
      [connect_resp req SmErrType.kNoError (server_session_object s start_seq req).server] }

/-- Modelled from the spec: sending a packet from the handler, which is not
part of the translated files: the packet is handed to the control transport
and nothing else changes. -/
def send_resp (s : Rpc) (pkt : SmPkt) : Rpc :=
  { s with sent := s.sent ++ [pkt] }

/-- Modelled from the spec: `handle_connect_req_st` is not part of the
translated files (only its system test is); these are steps 1 to 3 of section
4.4 of the spec.  Step 1: a live server-role session with the client metadata
of the request exists, and the response (no error, the server metadata of that
session) is sent again without any other change.  Step 2: no such session
exists and capacity remains, and the request is accepted.  Step 3: the table
is full, and a response with an error code is sent.  `start_seq` is the
freshly generated starting sequence number.  What is sent for a request whose
slot has been emptied (item 4 of that section) is not modelled: the spec names
no means by which the handler recognises such a request, and here it is
handled by steps 1 to 3 like any other request. -/
def handle_connect_req_st (K : Constants) (s : Rpc) (start_seq : Nat) (req : SmPkt) :
    Except Fault Rpc :=
  match find_server_session s req.client s.session_vec with
  | Except.error e => Except.error e
  | Except.ok (some sess) =>
    Except.ok (send_resp s (connect_resp req SmErrType.kNoError sess.server))
  | Except.ok none =>
    if s.session_vec.length < K.kMaxSessionsPerThread then
      Except.ok (accept_conn_req s start_seq req)
    else Except.ok (send_resp s (connect_resp req (SmErrType.kOther 1) req.server))

/-! ## Test data -/

/-- Constants for the examples. -/
def K0 : Constants :=
  { kMaxFabDevPorts := 4, kMaxHostnameLen := 16, kMaxSessionsPerThread := 2 }

/-- An `Rpc` on host `"a"` with id 0, managing port 0, with no sessions. -/
def rpc0 : Rpc :=
  { hostname := "a", app_tid := 0, transport_type := 1, routing_info := 7,
    fdev_port_vec := [0], session_vec := [], in_flight_vec := [], heap := [],
    sent := [] }

/-- The metadata of the client side of the sessions of `rpc0`. -/
def client0 (n : Nat) : SessionMetadata :=
  { transport_type := 1, hostname := "a", app_tid := 0, fdev_port_index := 0,
    session_num := some n, start_seq := some 5, routing_info := some 7 }

/-- The metadata of a server endpoint on host `"b"` with id 1, as known to the
client before the connect response. -/
def server0 : SessionMetadata :=
  { transport_type := 1, hostname := "b", app_tid := 1, fdev_port_index := 0,
    session_num := none, start_seq := none, routing_info := none }

/-- A client session from `rpc0` to `server0` in the given state. -/
def session0 (st : SessionState) : Session :=
  { role := Role.kClient, state := st, client := client0 0, server := server0 }

/-- The `Rpc` `rpc0` holding the single session `session0 st` in slot 0, in the
in-flight registry when `fl` is set, after its `ConnectReq` was sent. -/
def rpc1 (st : SessionState) (fl : Bool) : Rpc :=
  { rpc0 with
    session_vec := [some 0]
    in_flight_vec := if fl then [0] else []
    heap := [some (session0 st)]
    sent := [sm_pkt_of SmPktType.kConnectReq (session0 SessionState.kConnectInProgress)] }

/-- The `Rpc` `rpc0` with a full table for `K0`: a disconnected client session
to `server0` in slot 0 and a connected one to host `"c"` in slot 1. -/
def rpc2 : Rpc :=
  { rpc0 with
    session_vec := [some 0, some 1]
    heap := [some (session0 SessionState.kDisconnected),
      some { role := Role.kClient, state := SessionState.kConnected, client := client0 1,
             server := { server0 with hostname := "c", app_tid := 2 } }] }

/-- The metadata of a client endpoint on host `"c"` with id 1 that asks for its
session 0. -/
def client3 : SessionMetadata :=
  { transport_type := 1, hostname := "c", app_tid := 1, fdev_port_index := 0,
    session_num := some 0, start_seq := some 3, routing_info := some 9 }

/-- A server-role session of `rpc0` for the client `client3`. -/
def session3 : Session :=
  { role := Role.kServer, state := SessionState.kConnected, client := client3,
    server := { client0 0 with start_seq := some 8 } }

/-- The `Rpc` `rpc0` holding the server-role session `session3` in slot 0. -/
def rpc3 : Rpc :=
  { rpc0 with session_vec := [some 0], heap := [some session3] }

/-- The server metadata of a connect request to `rpc0`: the fields that the
server assigns are not set. -/
def server3 : SessionMetadata :=
  { transport_type := 1, hostname := "a", app_tid := 0, fdev_port_index := 0,
    session_num := none, start_seq := none, routing_info := none }

/-- The connect request of the client `client3` to `rpc0`. -/
def conn_req3 : SmPkt :=
  { pkt_type := SmPktType.kConnectReq, err_type := SmErrType.kNoError, client := client3,
    server := server3 }

/-- The `Rpc` `rpc0` after it accepted `conn_req3` with starting sequence
number 8. -/
def rpc0_accepted : Rpc :=
  { rpc0 with
    session_vec := [some 0]
    heap := [some session3]
    sent := [connect_resp conn_req3 SmErrType.kNoError session3.server] }

/-! ## Lemmas on the object store -/

theorem deref_eq_some_iff (s : Rpc) (p : SessionPtr) (sess : Session) :
    s.deref p = some sess ↔ s.heap[p]? = some (some sess) := by
  unfold Rpc.deref
  split
  · next x h => simp [h]
  · next h =>
    constructor
    · intro h'; cases h'
    · intro h'; exact absurd h' (h sess)

theorem deref_alloc_new (s : Rpc) (sess : Session) :
    (s.alloc sess).2.deref (s.alloc sess).1 = some sess := by
  rw [deref_eq_some_iff]
  simp [Rpc.alloc]

theorem deref_alloc_old (s : Rpc) (sess x : Session) (p : SessionPtr)
    (h : s.deref p = some x) : (s.alloc sess).2.deref p = some x := by
  rw [deref_eq_some_iff] at h ⊢
  have hlt : p < s.heap.length := by
    by_contra hge
    have hle : s.heap.length ≤ p := Nat.le_of_not_lt hge
    rw [List.getElem?_eq_none hle] at h
    cases h
  simp [Rpc.alloc, List.getElem?_append_left hlt, h]

/-! ## The duplicate scan -/

theorem slot_valid_some (s : Rpc) (p : SessionPtr) (h : slot_valid s (some p) = true) :
    ∃ sess, s.deref p = some sess ∧
      (sess.role = Role.kClient ∨
        (sess.server.hostname = s.hostname ∧ sess.server.app_tid = s.app_tid)) := by
  unfold slot_valid at h
  cases hd : s.deref p with
  | none => simp [hd] at h
  | some sess =>
    refine ⟨sess, rfl, ?_⟩
    simpa [hd] using h

theorem create_session_scan_spec (s : Rpc) (h : String) (t : Nat)
    (hself : ¬ (h = s.hostname ∧ t = s.app_tid)) :
    ∀ l : List (Option SessionPtr), l.all (slot_valid s) = true →
      ∃ b, create_session_scan s h t l = Except.ok b ∧
        (b = true ↔ ∃ (p : SessionPtr) (sess : Session), some p ∈ l ∧ s.deref p = some sess ∧
          sess.server.hostname = h ∧ sess.server.app_tid = t) := by
  intro l
  induction l with
  | nil =>
    intro _
    exact ⟨false, rfl, by simp⟩
  | cons slot rest ih =>
    intro hall
    rw [List.all_cons, Bool.and_eq_true] at hall
    obtain ⟨b, hb, hiff⟩ := ih hall.2
    cases slot with
    | none =>
      refine ⟨b, by simpa [create_session_scan] using hb, ?_⟩
      rw [hiff]
      simp
    | some p =>
      obtain ⟨sess, hd, hrole⟩ := slot_valid_some s p hall.1
      by_cases hm : sess.server.hostname = h ∧ sess.server.app_tid = t
      · have hc : sess.role = Role.kClient := by
          rcases hrole with hc | hsv
          · exact hc
          · exact absurd ⟨hm.1 ▸ hsv.1, hm.2 ▸ hsv.2⟩ hself
        refine ⟨true, by simp [create_session_scan, hd, hm, hc], ?_⟩
        simp only [true_iff]
        exact ⟨p, sess, List.mem_cons_self _ _, hd, hm.1, hm.2⟩
      · refine ⟨b, by simpa [create_session_scan, hd, hm] using hb, ?_⟩
        rw [hiff]
        constructor
        · rintro ⟨q, x, hq, hx, hmx⟩
          exact ⟨q, x, List.mem_cons_of_mem _ hq, hx, hmx⟩
        · rintro ⟨q, x, hq, hx, hmx⟩
          rcases List.mem_cons.1 hq with heq | hq
          · have hpq : q = p := Option.some.inj heq
            subst hpq
            rw [hd] at hx
            cases hx
            exact absurd hmx hm
          · exact ⟨q, x, hq, hx, hmx⟩

theorem has_session_to_iff (s : Rpc) (h : String) (t : Nat) :
    has_session_to s (some h) t ↔
      ∃ (p : SessionPtr) (sess : Session), some p ∈ s.session_vec ∧ s.deref p = some sess ∧
        sess.server.hostname = h ∧ sess.server.app_tid = t := by
  unfold has_session_to
  constructor
  · rintro ⟨i, p, sess, hi, hd, hh, ht⟩
    exact ⟨p, sess, List.mem_iff_getElem?.2 ⟨i, hi⟩, hd, Option.some.inj hh, ht⟩
  · rintro ⟨p, sess, hp, hd, hh, ht⟩
    obtain ⟨i, hi⟩ := List.getElem?_of_mem hp
    exact ⟨i, p, sess, hi, hd, congrArg some hh, ht⟩

/-- The scan of a valid table, for a request that passed the self-connection
check, returns; it reports a duplicate exactly when the table has a session to
the requested endpoint. -/
theorem create_session_scan_table (s : Rpc) (h : String) (t : Nat)
    (hv : table_valid s = true) (hself : ¬ (h = s.hostname ∧ t = s.app_tid)) :
    ∃ b, create_session_scan s h t s.session_vec = Except.ok b ∧
      (b = true ↔ has_session_to s (some h) t) := by
  obtain ⟨b, hb, hiff⟩ := create_session_scan_spec s h t hself s.session_vec hv
  exact ⟨b, hb, by rw [hiff, has_session_to_iff]⟩

/-! ## Inversion of `create_session` -/

theorem create_session_tail (s : Rpc) (sess : Session) :
    send_connect_req_one
      (add_to_in_flight
        { (s.alloc sess).2 with
          session_vec := (s.alloc sess).2.session_vec ++ [some (s.alloc sess).1] }
        (s.alloc sess).1) (s.alloc sess).1
      = Except.ok (create_session_post s sess) := by
  have hd : (add_to_in_flight
        { (s.alloc sess).2 with
          session_vec := (s.alloc sess).2.session_vec ++ [some (s.alloc sess).1] }
        (s.alloc sess).1).deref (s.alloc sess).1 = some sess := by
    rw [deref_eq_some_iff]
    simp [Rpc.alloc, add_to_in_flight]
  unfold send_connect_req_one
  rw [hd]
  rfl

/-- What a returned `create_session` call did: with `nullptr` returned, the
state is the one before the call; with a session returned, no check rejected
the call, the scan found no duplicate, and the state is `create_session_post`. -/
theorem create_session_inv (K : Constants) (s : Rpc) (q l : Nat) (h : Option String)
    (t r : Nat) (ret : Option SessionPtr) (s' : Rpc)
    (hc : create_session K s q l h t r = Except.ok (ret, s')) :
    (ret = none ∧ s' = s) ∨
    (∃ x, h = some x ∧ ret = some s.heap.length ∧
      s' = create_session_post s (create_session_object s q l x t r) ∧
      l < K.kMaxFabDevPorts ∧ r < K.kMaxFabDevPorts ∧ is_fdev_port_managed s l = true ∧
      strlen x ≤ K.kMaxHostnameLen ∧ ¬ (x = s.hostname ∧ t = s.app_tid) ∧
      create_session_scan s x t s.session_vec = Except.ok false ∧
      s.session_vec.length < K.kMaxSessionsPerThread) := by
  unfold create_session at hc
  by_cases h1 : l ≥ K.kMaxFabDevPorts
  · rw [if_pos h1] at hc; cases hc; exact Or.inl ⟨rfl, rfl⟩
  rw [if_neg h1] at hc
  by_cases h2 : r ≥ K.kMaxFabDevPorts
  · rw [if_pos h2] at hc; cases hc; exact Or.inl ⟨rfl, rfl⟩
  rw [if_neg h2] at hc
  cases h3 : is_fdev_port_managed s l with
  | false => simp [h3] at hc; exact Or.inl ⟨hc.1.symm, hc.2.symm⟩
  | true =>
    simp only [h3, Bool.not_true, Bool.false_eq_true, if_false] at hc
    cases h with
    | none => cases hc; exact Or.inl ⟨rfl, rfl⟩
    | some x =>
      simp only at hc
      by_cases h4 : strlen x > K.kMaxHostnameLen
      · rw [if_pos h4] at hc; cases hc; exact Or.inl ⟨rfl, rfl⟩
      rw [if_neg h4] at hc
      by_cases h5 : x = s.hostname ∧ t = s.app_tid
      · rw [if_pos h5] at hc; cases hc; exact Or.inl ⟨rfl, rfl⟩
      rw [if_neg h5] at hc
      cases h6 : create_session_scan s x t s.session_vec with
      | error e => rw [h6] at hc; cases hc
      | ok b =>
        rw [h6] at hc
        cases b with
        | true => cases hc; exact Or.inl ⟨rfl, rfl⟩
        | false =>
          simp only at hc
          by_cases h7 : s.session_vec.length ≥ K.kMaxSessionsPerThread
          · rw [if_pos h7] at hc; cases hc; exact Or.inl ⟨rfl, rfl⟩
          rw [if_neg h7] at hc
          rw [create_session_tail] at hc
          cases hc
          exact Or.inr ⟨x, rfl, rfl, rfl, by omega, by omega, rfl, by omega, h5, h6, by omega⟩

/-- On a valid table `create_session` returns: null, with the state unchanged,
when one of the rejecting conditions holds, and otherwise a pointer to the
new session. -/
theorem create_session_total (K : Constants) (s : Rpc) (q l : Nat) (h : Option String)
    (t r : Nat) (hv : table_valid s = true) :
    (create_session_rejects K s l h t r ∧
      create_session K s q l h t r = Except.ok (none, s)) ∨
    (¬ create_session_rejects K s l h t r ∧ ∃ x, h = some x ∧
      create_session K s q l h t r =
        Except.ok (some s.heap.length,
          create_session_post s (create_session_object s q l x t r))) := by
  unfold create_session_rejects
  by_cases h1 : l ≥ K.kMaxFabDevPorts
  · exact Or.inl ⟨Or.inl h1, by simp [create_session, h1]⟩
  by_cases h2 : r ≥ K.kMaxFabDevPorts
  · exact Or.inl ⟨Or.inr (Or.inl h2), by simp [create_session, h1, h2]⟩
  cases h3 : is_fdev_port_managed s l with
  | false => exact Or.inl ⟨Or.inr (Or.inr (Or.inl rfl)), by simp [create_session, h1, h2, h3]⟩
  | true =>
    cases h with
    | none =>
      exact Or.inl ⟨Or.inr (Or.inr (Or.inr (Or.inl (Or.inl rfl)))),
        by simp [create_session, h1, h2, h3]⟩
    | some x =>
      by_cases h4 : strlen x > K.kMaxHostnameLen
      · exact Or.inl ⟨Or.inr (Or.inr (Or.inr (Or.inl (Or.inr ⟨x, rfl, h4⟩)))),
          by simp [create_session, h1, h2, h3, h4]⟩
      by_cases h5 : x = s.hostname ∧ t = s.app_tid
      · exact Or.inl ⟨Or.inr (Or.inr (Or.inr (Or.inr (Or.inl ⟨congrArg some h5.1, h5.2⟩)))),
          by simp [create_session, h1, h2, h3, h4, h5]⟩
      obtain ⟨b, hb, hiff⟩ := create_session_scan_table s x t hv h5
      have hstep : create_session K s q l (some x) t r =
          match create_session_scan s x t s.session_vec with
          | Except.error e => Except.error e
          | Except.ok true => Except.ok (none, s)
          | Except.ok false =>
            if s.session_vec.length ≥ K.kMaxSessionsPerThread then Except.ok (none, s)
            else Except.ok (some s.heap.length,
              create_session_post s (create_session_object s q l x t r)) := by
        unfold create_session
        rw [if_neg h1, if_neg h2]
        simp only [h3, Bool.not_true, Bool.false_eq_true, if_false]
        rw [if_neg h4, if_neg h5]
        cases create_session_scan s x t s.session_vec with
        | error e => rfl
        | ok b =>
          cases b with
          | true => rfl
          | false =>
            simp only
            split
            · rfl
            · rw [create_session_tail]
              rfl
      rw [hstep, hb]
      cases b with
      | true =>
        exact Or.inl ⟨Or.inr (Or.inr (Or.inr (Or.inr (Or.inr (Or.inl (hiff.1 rfl)))))), rfl⟩
      | false =>
        have hno : ¬ has_session_to s (some x) t := fun hh => by
          have := hiff.2 hh
          cases this
        by_cases h7 : s.session_vec.length ≥ K.kMaxSessionsPerThread
        · exact Or.inl ⟨Or.inr (Or.inr (Or.inr (Or.inr (Or.inr (Or.inr h7))))),
            by simp [h7]⟩
        · refine Or.inr ⟨?_, x, rfl, by simp [h7]⟩
          rintro (c | c | c | c | c | c | c)
          · exact h1 c
          · exact h2 c
          · cases c
          · rcases c with c | ⟨y, hy, hlen⟩
            · cases c
            · cases hy; exact h4 hlen
          · exact h5 ⟨Option.some.inj c.1, c.2⟩
          · exact hno c
          · exact h7 c

/-! ## Evaluation of `destroy_session` -/

theorem deref_lt (s : Rpc) (p : SessionPtr) (sess : Session) (h : s.deref p = some sess) :
    p < s.heap.length := by
  rw [deref_eq_some_iff] at h
  by_contra hge
  rw [List.getElem?_eq_none (Nat.le_of_not_lt hge)] at h
  cases h

theorem deref_store_self (s : Rpc) (p : SessionPtr) (sess x : Session)
    (h : s.deref p = some sess) : (s.store p x).deref p = some x := by
  rw [deref_eq_some_iff]
  simp [Rpc.store, List.getElem?_set_self (deref_lt s p sess h)]

theorem destroy_session_connected_eq (s : Rpc) (p : SessionPtr) (sess : Session)
    (h : s.deref p = some sess) :
    destroy_session_connected s p sess = Except.ok (destroy_session_post s p sess) := by
  have hd : (add_to_in_flight
      (s.store p { sess with state := SessionState.kDisconnectInProgress }) p).deref p
      = some { sess with state := SessionState.kDisconnectInProgress } :=
    deref_store_self s p sess _ h
  unfold destroy_session_connected send_disconnect_req_one
  simp only [hd]
  rfl

/-- The outcome of `destroy_session` on a managed, live, client-role session,
by the state of the session. -/
theorem destroy_session_eq (s : Rpc) (p : SessionPtr) (sess : Session)
    (hd : s.deref p = some sess) (hm : is_session_managed s p = true)
    (hr : sess.role = Role.kClient) :
    destroy_session s (some p) =
      match sess.state with
      | SessionState.kConnectInProgress =>
        if is_in_flight s p = true then
          Except.ok (destroy_session_post (remove_from_in_flight s p) p sess)
        else Except.error Fault.assertion_failed
      | SessionState.kConnected => Except.ok (destroy_session_post s p sess)
      | SessionState.kDisconnectInProgress =>
        if is_in_flight s p = true then Except.ok s
        else Except.error Fault.assertion_failed
      | SessionState.kDisconnected => Except.ok (s.delete p)
      | SessionState.kError => Except.ok (s.delete p) := by
  have hd' : (remove_from_in_flight s p).deref p = some sess := hd
  unfold destroy_session
  simp only [hm, hd, hr, Bool.not_true, Bool.false_eq_true, if_false, ne_eq, not_true_eq_false]
  cases hs : sess.state with
  | kConnectInProgress =>
    cases hf : is_in_flight s p with
    | false => simp
    | true => simp [destroy_session_connected_eq _ p sess hd']
  | kConnected => simp [destroy_session_connected_eq s p sess hd]
  | kDisconnectInProgress =>
    cases hf : is_in_flight s p with
    | false => simp
    | true => simp
  | kDisconnected => rfl
  | kError => rfl

/-- A `destroy_session` call that returns was given a pointer to a managed,
live, client-role session. -/
theorem destroy_session_inv (s : Rpc) (session : Option SessionPtr) (s' : Rpc)
    (h : destroy_session s session = Except.ok s') :
    ∃ (p : SessionPtr) (sess : Session), session = some p ∧ s.deref p = some sess ∧
      is_session_managed s p = true ∧ sess.role = Role.kClient := by
  unfold destroy_session at h
  cases session with
  | none => cases h
  | some p =>
    simp only at h
    cases hm : is_session_managed s p with
    | false => simp [hm] at h
    | true =>
      simp only [hm, Bool.not_true, Bool.false_eq_true, if_false] at h
      cases hd : s.deref p with
      | none => simp [hd] at h
      | some sess =>
        simp only [hd] at h
        by_cases hr : sess.role = Role.kClient
        · exact ⟨p, sess, rfl, hd, hm, hr⟩
        · simp [hr] at h

/-- No path of `destroy_session` writes to `session_vec`. -/
theorem destroy_session_session_vec (s : Rpc) (session : Option SessionPtr) (s' : Rpc)
    (h : destroy_session s session = Except.ok s') : s'.session_vec = s.session_vec := by
  obtain ⟨p, sess, rfl, hd, hm, hr⟩ := destroy_session_inv s session s' h
  rw [destroy_session_eq s p sess hd hm hr] at h
  cases hs : sess.state <;> rw [hs] at h <;> simp only at h
  · split at h
    · cases h; rfl
    · cases h
  · cases h; rfl
  · split at h
    · cases h; rfl
    · cases h
  · cases h; rfl
  · cases h; rfl

/-! ## The object store after `destroy_session` -/

theorem deref_heap_set_ne (s s' : Rpc) (p q : SessionPtr) (v : Option Session)
    (hh : s'.heap = s.heap.set p v) (hne : q ≠ p) : s'.deref q = s.deref q := by
  unfold Rpc.deref
  rw [hh, List.getElem?_set_ne (Ne.symm hne)]

theorem deref_heap_set_self (s s' : Rpc) (p : SessionPtr) (v : Option Session)
    (hh : s'.heap = s.heap.set p v) (hlt : p < s.heap.length) : s'.deref p = v := by
  unfold Rpc.deref
  rw [hh, List.getElem?_set_self hlt]
  cases v <;> rfl

theorem deref_destroy_post_self (s : Rpc) (p : SessionPtr) (sess y : Session)
    (h : s.deref p = some y) :
    (destroy_session_post s p sess).deref p
      = some { sess with state := SessionState.kDisconnectInProgress } :=
  deref_heap_set_self s _ p _ rfl (deref_lt s p y h)

theorem deref_destroy_post_ne (s : Rpc) (p q : SessionPtr) (sess : Session) (hne : q ≠ p) :
    (destroy_session_post s p sess).deref q = s.deref q :=
  deref_heap_set_ne s _ p q _ rfl hne

theorem deref_delete_self (s : Rpc) (p : SessionPtr) (y : Session)
    (h : s.deref p = some y) : (s.delete p).deref p = none :=
  deref_heap_set_self s _ p _ rfl (deref_lt s p y h)

theorem deref_delete_ne (s : Rpc) (p q : SessionPtr) (hne : q ≠ p) :
    (s.delete p).deref q = s.deref q :=
  deref_heap_set_ne s _ p q _ rfl hne

/-- After a `destroy_session` call that returns, every live session other than
the one destroyed is what it was, and the destroyed one is either released or
in state `kDisconnectInProgress` with its other fields as before. -/
theorem destroy_session_heap (s : Rpc) (p : SessionPtr) (sess : Session) (s' : Rpc)
    (hd : s.deref p = some sess)
    (h : destroy_session s (some p) = Except.ok s') :
    (∀ q : SessionPtr, q ≠ p → s'.deref q = s.deref q) ∧
    (s'.deref p = none ∨
      s'.deref p = some { sess with state := SessionState.kDisconnectInProgress }) := by
  obtain ⟨p', sess', hp, hd', hm, hr⟩ := destroy_session_inv s (some p) s' h
  cases hp
  rw [hd] at hd'
  cases hd'
  have hd0 : (remove_from_in_flight s p).deref p = some sess := hd
  rw [destroy_session_eq s p sess hd hm hr] at h
  cases hs : sess.state <;> rw [hs] at h <;> simp only at h
  · split at h
    · cases h
      exact ⟨fun q hne => deref_destroy_post_ne _ p q sess hne,
        Or.inr (deref_destroy_post_self _ p sess sess hd0)⟩
    · cases h
  · cases h
    exact ⟨fun q hne => deref_destroy_post_ne _ p q sess hne,
      Or.inr (deref_destroy_post_self _ p sess sess hd)⟩
  · split at h
    · cases h
      refine ⟨fun q _ => rfl, Or.inr ?_⟩
      rw [hd]
      cases sess
      simp only at hs
      rw [hs]
    · cases h
  · cases h
    exact ⟨fun q hne => deref_delete_ne s p q hne, Or.inl (deref_delete_self s p sess hd)⟩
  · cases h
    exact ⟨fun q hne => deref_delete_ne s p q hne, Or.inl (deref_delete_self s p sess hd)⟩

theorem count_filter_ne_append (l : List SessionPtr) (p : SessionPtr) :
    (l.filter (fun q => decide (q ≠ p)) ++ [p]).count p = 1 := by
  have h0 : (l.filter (fun q => decide (q ≠ p))).count p = 0 := by
    apply List.count_eq_zero_of_not_mem
    intro hmem
    have := (List.mem_filter.1 hmem).2
    simp at this
  rw [List.count_append, h0]
  simp

/-- On a valid table `create_session` returns. -/
theorem create_session_null_step (K : Constants) (s : Rpc) (q l : Nat) (h : Option String)
    (t r : Nat) (hv : table_valid s = true) :
    ∃ ret s', create_session K s q l h t r = Except.ok (ret, s') ∧
      (ret = none → s' = s) ∧ (create_session_rejects K s l h t r → ret = none) := by
  rcases create_session_total K s q l h t r hv with ⟨_, hc⟩ | ⟨hrej, x, _, hc⟩
  · exact ⟨none, s, hc, fun _ => rfl, fun _ => rfl⟩
  · exact ⟨_, _, hc, fun hnone => (by cases hnone), fun hr => absurd hr hrej⟩

/-! ## Invariants of the session table -/

theorem slot_valid_mono (s s' : Rpc) (slot : Option SessionPtr)
    (hderef : ∀ (q : SessionPtr) (y : Session), s.deref q = some y → s'.deref q = some y)
    (hh : s'.hostname = s.hostname) (ht : s'.app_tid = s.app_tid)
    (h : slot_valid s slot = true) : slot_valid s' slot = true := by
  cases slot with
  | none => rfl
  | some p =>
    obtain ⟨sess, hd, hrole⟩ := slot_valid_some s p h
    unfold slot_valid
    simp only [hderef p sess hd, hh, ht]
    simpa using hrole

theorem deref_create_post_old (s : Rpc) (sess y : Session) (q : SessionPtr)
    (h : s.deref q = some y) : (create_session_post s sess).deref q = some y := by
  have hlt := deref_lt s q y h
  rw [deref_eq_some_iff] at h ⊢
  simp [create_session_post, List.getElem?_append_left hlt, h]

theorem deref_create_post_new (s : Rpc) (sess : Session) :
    (create_session_post s sess).deref s.heap.length = some sess := by
  rw [deref_eq_some_iff]
  simp [create_session_post]

theorem table_valid_slot (s : Rpc) (p : SessionPtr) (hv : table_valid s = true)
    (hp : some p ∈ s.session_vec) :
    ∃ sess, s.deref p = some sess ∧
      (sess.role = Role.kClient ∨
        (sess.server.hostname = s.hostname ∧ sess.server.app_tid = s.app_tid)) :=
  slot_valid_some s p (List.all_eq_true.1 hv _ hp)

/-- The table stays valid when `create_session` appends a client session. -/
theorem table_valid_create_post (s : Rpc) (sess : Session) (hv : table_valid s = true)
    (hr : sess.role = Role.kClient) : table_valid (create_session_post s sess) = true := by
  unfold table_valid
  rw [List.all_eq_true]
  intro slot hslot
  have hmem : slot ∈ s.session_vec ∨ slot = some s.heap.length := by
    simpa [create_session_post] using hslot
  rcases hmem with hold | hnew
  · exact slot_valid_mono s _ slot (fun q y hq => deref_create_post_old s sess y q hq) rfl rfl
      (List.all_eq_true.1 hv _ hold)
  · subst hnew
    unfold slot_valid
    simp [deref_create_post_new, hr]

theorem create_session_object_role (s : Rpc) (q l : Nat) (x : String) (t r : Nat) :
    (create_session_object s q l x t r).role = Role.kClient := rfl

theorem create_session_object_state (s : Rpc) (q l : Nat) (x : String) (t r : Nat) :
    (create_session_object s q l x t r).state = SessionState.kConnectInProgress := rfl

/-- A returning `create_session` call keeps the table valid. -/
theorem table_valid_create (K : Constants) (s : Rpc) (q l : Nat) (h : Option String)
    (t r : Nat) (ret : Option SessionPtr) (s' : Rpc) (hv : table_valid s = true)
    (hc : create_session K s q l h t r = Except.ok (ret, s')) : table_valid s' = true := by
  rcases create_session_inv K s q l h t r ret s' hc with ⟨_, hs⟩ | ⟨x, _, _, hs, _⟩
  · rw [hs]; exact hv
  · rw [hs]
    exact table_valid_create_post s _ hv (create_session_object_role s q l x t r)

/-- Appending a session to an endpoint that no session of a valid table has
keeps the server endpoints of the table distinct. -/
theorem no_dup_create_post (s : Rpc) (sess : Session) (hv : table_valid s = true)
    (hn : NoDupServers s)
    (hnew : ¬ has_session_to s (some sess.server.hostname) sess.server.app_tid) :
    NoDupServers (create_session_post s sess) := by
  have hold : ∀ (i : Nat) (p : SessionPtr) (x : Session),
      (create_session_post s sess).session_vec[i]? = some (some p) →
      (create_session_post s sess).deref p = some x →
      (i < s.session_vec.length ∧ s.session_vec[i]? = some (some p) ∧ s.deref p = some x) ∨
      (i = s.session_vec.length ∧ x = sess) := by
    intro i p x hi hx
    by_cases hlt : i < s.session_vec.length
    · have hi' : s.session_vec[i]? = some (some p) := by
        simpa [create_session_post, List.getElem?_append_left hlt] using hi
      obtain ⟨y, hy, _⟩ := table_valid_slot s p hv (List.mem_iff_getElem?.2 ⟨i, hi'⟩)
      have := deref_create_post_old s sess y p hy
      rw [this] at hx
      cases hx
      exact Or.inl ⟨hlt, hi', hy⟩
    · have hle : s.session_vec.length ≤ i := Nat.le_of_not_lt hlt
      have hi' : ([some s.heap.length] : List (Option SessionPtr))[i - s.session_vec.length]?
          = some (some p) := by
        simpa [create_session_post, List.getElem?_append_right hle] using hi
      have hidx : i - s.session_vec.length = 0 := by
        by_contra hne
        have h1 : 1 ≤ i - s.session_vec.length := Nat.one_le_iff_ne_zero.2 hne
        rw [List.getElem?_eq_none (by simpa using h1)] at hi'
        cases hi'
      rw [hidx] at hi'
      have hp : p = s.heap.length := by
        simp at hi'
        exact hi'.symm
      subst hp
      rw [deref_create_post_new] at hx
      cases hx
      exact Or.inr ⟨by omega, rfl⟩
  intro i j p1 p2 x1 x2 hi hj h1 h2 hh ht
  rcases hold i p1 x1 hi h1 with ⟨_, hi', h1'⟩ | ⟨hieq, hx1⟩
  · rcases hold j p2 x2 hj h2 with ⟨_, hj', h2'⟩ | ⟨_, hx2⟩
    · exact hn i j p1 p2 x1 x2 hi' hj' h1' h2' hh ht
    · subst hx2
      exact absurd ⟨i, p1, x1, hi', h1', congrArg some hh, ht⟩ hnew
  · rcases hold j p2 x2 hj h2 with ⟨_, hj', h2'⟩ | ⟨hjeq, _⟩
    · subst hx1
      exact absurd ⟨j, p2, x2, hj', h2', congrArg some hh.symm, ht.symm⟩ hnew
    · rw [hieq, hjeq]

theorem create_session_object_server (s : Rpc) (q l : Nat) (x : String) (t r : Nat) :
    (create_session_object s q l x t r).server.hostname = x ∧
      (create_session_object s q l x t r).server.app_tid = t := ⟨rfl, rfl⟩

/-- A returning `create_session` call on a valid table keeps the server
endpoints of the table distinct. -/
theorem no_dup_create (K : Constants) (s : Rpc) (q l : Nat) (h : Option String)
    (t r : Nat) (ret : Option SessionPtr) (s' : Rpc) (hv : table_valid s = true)
    (hn : NoDupServers s)
    (hc : create_session K s q l h t r = Except.ok (ret, s')) : NoDupServers s' := by
  rcases create_session_inv K s q l h t r ret s' hc with
    ⟨_, hs⟩ | ⟨x, _, _, hs, _, _, _, _, hself, hscan, _⟩
  · rw [hs]; exact hn
  · rw [hs]
    apply no_dup_create_post s _ hv hn
    obtain ⟨b, hb, hiff⟩ := create_session_scan_table s x t hv hself
    rw [hscan] at hb
    cases hb
    intro hhas
    have := hiff.2 hhas
    cases this

/-- A run of `create_session` calls from a valid table with distinct server
endpoints returns and ends in such a table. -/
theorem run_creates (K : Constants) :
    ∀ (calls : List Call) (s : Rpc), calls.all Call.is_create = true →
      table_valid s = true → NoDupServers s →
      ∃ s' n, run K s calls = Except.ok (s', n) ∧ table_valid s' = true ∧ NoDupServers s' := by
  intro calls
  induction calls with
  | nil =>
    intro s _ hv hn
    exact ⟨s, 0, rfl, hv, hn⟩
  | cons c rest ih =>
    intro s hall hv hn
    rw [List.all_cons, Bool.and_eq_true] at hall
    cases c with
    | destroy p => cases hall.1
    | create q l h t r =>
      obtain ⟨ret, s1, hc, _, _⟩ := create_session_null_step K s q l h t r hv
      obtain ⟨s2, n, hrun, hv2, hn2⟩ := ih s1 hall.2
        (table_valid_create K s q l h t r ret s1 hv hc)
        (no_dup_create K s q l h t r ret s1 hv hn hc)
      refine ⟨s2, if ret.isSome then n + 1 else n, ?_, hv2, hn2⟩
      simp only [run, hc, hrun]

/-! ## Runs of `create_session` and `destroy_session` calls -/

theorem slot_pending_some (s : Rpc) (p : SessionPtr) (h : slot_pending s (some p) = true) :
    ∃ sess, s.deref p = some sess ∧ sess.role = Role.kClient ∧
      (sess.state = SessionState.kConnectInProgress ∨
        sess.state = SessionState.kDisconnectInProgress) := by
  unfold slot_pending at h
  cases hd : s.deref p with
  | none => simp [hd] at h
  | some sess =>
    refine ⟨sess, rfl, ?_⟩
    simpa [hd] using h

theorem slot_pending_intro (s : Rpc) (p : SessionPtr) (sess : Session)
    (hd : s.deref p = some sess) (hr : sess.role = Role.kClient)
    (hs : sess.state = SessionState.kConnectInProgress ∨
      sess.state = SessionState.kDisconnectInProgress) : slot_pending s (some p) = true := by
  unfold slot_pending
  simp only [hd]
  simpa using ⟨hr, hs⟩

theorem slot_pending_valid (s : Rpc) (slot : Option SessionPtr)
    (h : slot_pending s slot = true) : slot_valid s slot = true := by
  cases slot with
  | none => rfl
  | some p =>
    obtain ⟨sess, hd, hr, _⟩ := slot_pending_some s p h
    unfold slot_valid
    simp [hd, hr]

theorem table_pending_valid (s : Rpc) (h : table_pending s = true) : table_valid s = true := by
  unfold table_pending at h
  unfold table_valid
  rw [List.all_eq_true] at h ⊢
  exact fun slot hslot => slot_pending_valid s slot (h slot hslot)

/-- A returning `create_session` call keeps every slot pending. -/
theorem table_pending_create (K : Constants) (s : Rpc) (q l : Nat) (h : Option String)
    (t r : Nat) (ret : Option SessionPtr) (s' : Rpc) (hp : table_pending s = true)
    (hc : create_session K s q l h t r = Except.ok (ret, s')) : table_pending s' = true := by
  rcases create_session_inv K s q l h t r ret s' hc with ⟨_, hs⟩ | ⟨x, _, _, hs, _⟩
  · rw [hs]; exact hp
  · rw [hs]
    unfold table_pending at hp ⊢
    rw [List.all_eq_true] at hp ⊢
    intro slot hslot
    have hmem : slot ∈ s.session_vec ∨ slot = some s.heap.length := by
      simpa [create_session_post] using hslot
    rcases hmem with hold | hnew
    · cases slot with
      | none => rfl
      | some p =>
        obtain ⟨sess, hd, hr, hst⟩ := slot_pending_some s p (hp _ hold)
        exact slot_pending_intro _ p sess (deref_create_post_old s _ sess p hd) hr hst
    · subst hnew
      exact slot_pending_intro _ _ _ (deref_create_post_new s _) rfl (Or.inl rfl)

/-- A returning `destroy_session` call on a session in state
`kConnectInProgress` or `kDisconnectInProgress` leaves it live, in state
`kDisconnectInProgress`. -/
theorem destroy_session_pending (s : Rpc) (p : SessionPtr) (sess : Session) (s' : Rpc)
    (hd : s.deref p = some sess)
    (hs : sess.state = SessionState.kConnectInProgress ∨
      sess.state = SessionState.kDisconnectInProgress)
    (h : destroy_session s (some p) = Except.ok s') :
    s'.deref p = some { sess with state := SessionState.kDisconnectInProgress } := by
  obtain ⟨p', sess', hp, hd', hm, hr⟩ := destroy_session_inv s (some p) s' h
  cases hp
  rw [hd] at hd'
  cases hd'
  have hd0 : (remove_from_in_flight s p).deref p = some sess := hd
  rw [destroy_session_eq s p sess hd hm hr] at h
  rcases hs with hs | hs <;> rw [hs] at h <;> simp only at h
  · split at h
    · cases h
      exact deref_destroy_post_self _ p sess sess hd0
    · cases h
  · split at h
    · cases h
      rw [hd]
      cases sess
      simp only at hs
      rw [hs]
    · cases h

/-- A returning `destroy_session` call keeps every slot pending. -/
theorem table_pending_destroy (s : Rpc) (session : Option SessionPtr) (s' : Rpc)
    (hp : table_pending s = true)
    (hc : destroy_session s session = Except.ok s') : table_pending s' = true := by
  obtain ⟨p, sess, hses, hd, hm, hr⟩ := destroy_session_inv s session s' hc
  subst hses
  have hvec := destroy_session_session_vec s (some p) s' hc
  obtain ⟨hframe, _⟩ := destroy_session_heap s p sess s' hd hc
  have hmem : some p ∈ s.session_vec := by simpa [is_session_managed] using hm
  unfold table_pending at hp ⊢
  rw [List.all_eq_true] at hp ⊢
  rw [hvec]
  intro slot hslot
  cases slot with
  | none => rfl
  | some q =>
    by_cases hqp : q = p
    · subst hqp
      obtain ⟨y, hy, _, hst⟩ := slot_pending_some s q (hp _ hmem)
      rw [hd] at hy
      cases hy
      exact slot_pending_intro s' q _ (destroy_session_pending s q sess s' hd hst hc) hr
        (Or.inr rfl)
    · obtain ⟨y, hy, hry, hst⟩ := slot_pending_some s q (hp _ hslot)
      exact slot_pending_intro s' q y (by rw [hframe q hqp]; exact hy) hry hst

/-- The length of the table after a returning `create_session` call. -/
theorem create_session_length (K : Constants) (s : Rpc) (q l : Nat) (h : Option String)
    (t r : Nat) (ret : Option SessionPtr) (s' : Rpc)
    (hc : create_session K s q l h t r = Except.ok (ret, s')) :
    s'.session_vec.length = s.session_vec.length + (if ret.isSome then 1 else 0) ∧
      (s.session_vec.length ≤ K.kMaxSessionsPerThread →
        s'.session_vec.length ≤ K.kMaxSessionsPerThread) := by
  rcases create_session_inv K s q l h t r ret s' hc with
    ⟨hret, hs⟩ | ⟨x, _, hret, hs, _, _, _, _, _, _, hlen⟩
  · subst hret hs
    exact ⟨rfl, fun hle => hle⟩
  · subst hret hs
    have : (create_session_post s (create_session_object s q l x t r)).session_vec.length
        = s.session_vec.length + 1 := by simp [create_session_post]
    exact ⟨by simpa using this, fun _ => by omega⟩

/-- A run from a table in which every slot is pending ends in such a table; the
table has grown by the number of sessions created and stays within the bound. -/
theorem run_pending (K : Constants) :
    ∀ (calls : List Call) (s s' : Rpc) (n : Nat), table_pending s = true →
      s.session_vec.length ≤ K.kMaxSessionsPerThread →
      run K s calls = Except.ok (s', n) →
      table_pending s' = true ∧ s'.session_vec.length = s.session_vec.length + n ∧
        s'.session_vec.length ≤ K.kMaxSessionsPerThread := by
  intro calls
  induction calls with
  | nil =>
    intro s s' n hp hle hrun
    simp only [run] at hrun
    cases hrun
    exact ⟨hp, rfl, hle⟩
  | cons c rest ih =>
    intro s s' n hp hle hrun
    cases c with
    | create q l h t r =>
      simp only [run] at hrun
      cases hc : create_session K s q l h t r with
      | error e => rw [hc] at hrun; cases hrun
      | ok res =>
        obtain ⟨ret, s1⟩ := res
        rw [hc] at hrun
        simp only at hrun
        cases hr : run K s1 rest with
        | error e => rw [hr] at hrun; cases hrun
        | ok res2 =>
          obtain ⟨s2, m⟩ := res2
          rw [hr] at hrun
          simp only at hrun
          cases hrun
          obtain ⟨hlen, hbound⟩ := create_session_length K s q l h t r ret s1 hc
          obtain ⟨hp2, hl2, hb2⟩ := ih s1 s' m
            (table_pending_create K s q l h t r ret s1 hp hc) (hbound hle) hr
          refine ⟨hp2, ?_, hb2⟩
          rw [hl2, hlen]
          split <;> omega
    | destroy p =>
      simp only [run] at hrun
      cases hc : destroy_session s p with
      | error e => rw [hc] at hrun; cases hrun
      | ok s1 =>
        rw [hc] at hrun
        simp only at hrun
        have hvec := destroy_session_session_vec s p s1 hc
        obtain ⟨hp2, hl2, hb2⟩ := ih s1 s' n (table_pending_destroy s p s1 hp hc)
          (by rw [hvec]; exact hle) hrun
        exact ⟨hp2, by rw [hl2, hvec], hb2⟩

/-! ## Results on `create_session` -/

/-- C1: on a session table whose non-empty slots hold valid sessions,
`create_session` returns; it returns null if and only if a port index is out of
range, the local port is unmanaged, the remote hostname is null or longer than
`kMaxHostnameLen`, the request names this `Rpc` itself, a non-empty slot holds a
session to the requested (hostname, id), or the table length has reached
`kMaxSessionsPerThread`; for every other input it returns a pointer to a live
session. -/
theorem create_session_null_iff (K : Constants) (s : Rpc) (start_seq l : Nat)
    (h : Option String) (t r : Nat) (hv : table_valid s = true) :
    ∃ ret s', create_session K s start_seq l h t r = Except.ok (ret, s') ∧
      (ret = none ↔ create_session_rejects K s l h t r) ∧
      (¬ create_session_rejects K s l h t r →
        ∃ (p : SessionPtr) (sess : Session), ret = some p ∧ s'.deref p = some sess) := by
  rcases create_session_total K s start_seq l h t r hv with ⟨hrej, hc⟩ | ⟨hrej, x, _, hc⟩
  · exact ⟨none, s, hc, ⟨fun _ => hrej, fun _ => rfl⟩, fun hn => absurd hrej hn⟩
  · refine ⟨some s.heap.length, _, hc, ⟨fun hnone => (by cases hnone), fun hr => absurd hr hrej⟩,
      fun _ => ⟨s.heap.length, create_session_object s start_seq l x t r, rfl, ?_⟩⟩
    rw [deref_eq_some_iff]
    simp [create_session_post]

/-- The theorem `create_session_null_iff` applied to a table that already holds
a session. -/
theorem create_session_null_iff_witness :
    table_valid (rpc1 SessionState.kConnected false) = true ∧
    ∃ ret s', create_session K0 (rpc1 SessionState.kConnected false) 9 0 (some "c") 2 1
        = Except.ok (ret, s') ∧
      (ret = none ↔
        create_session_rejects K0 (rpc1 SessionState.kConnected false) 0 (some "c") 2 1) ∧
      (¬ create_session_rejects K0 (rpc1 SessionState.kConnected false) 0 (some "c") 2 1 →
        ∃ (p : SessionPtr) (sess : Session),
          ret = some p ∧ s'.deref p = some sess) :=
  ⟨by decide,
    create_session_null_iff K0 (rpc1 SessionState.kConnected false) 9 0 (some "c") 2 1
      (by decide)⟩

/-- C2: a `create_session` call that returns a session on a table of length `n`
(with `kMaxSessionsPerThread` at most `2^32`) has built a client session in
state `kConnectInProgress`, whose client metadata holds the local hostname, the
local id, the given local port and session number `n` and whose server metadata
holds the given remote hostname, id and port; the table has length `n + 1` with
the new pointer in slot `n` and the first `n` slots as before, every session
that was live is unchanged, the session is in the in-flight registry, and the
packets sent are those before the call followed by the `ConnectReq` of the
session. -/
theorem create_session_success (K : Constants) (s : Rpc) (start_seq l : Nat)
    (h : Option String) (t r : Nat) (p : SessionPtr) (s' : Rpc)
    (hK : K.kMaxSessionsPerThread ≤ 2 ^ 32)
    (hc : create_session K s start_seq l h t r = Except.ok (some p, s')) :
    ∃ (x : String) (sess : Session), h = some x ∧ s'.deref p = some sess ∧
      sess.role = Role.kClient ∧ sess.state = SessionState.kConnectInProgress ∧
      sess.client.hostname = s.hostname ∧ sess.client.app_tid = s.app_tid ∧
      sess.client.fdev_port_index = l ∧
      sess.client.session_num = some s.session_vec.length ∧
      sess.server.hostname = x ∧ sess.server.app_tid = t ∧
      sess.server.fdev_port_index = r ∧
      s'.session_vec.length = s.session_vec.length + 1 ∧
      s'.session_vec[s.session_vec.length]? = some (some p) ∧
      (∀ i : Nat, i < s.session_vec.length → s'.session_vec[i]? = s.session_vec[i]?) ∧
      (∀ (q : SessionPtr) (y : Session), s.deref q = some y → s'.deref q = some y) ∧
      is_in_flight s' p = true ∧
      s'.sent = s.sent ++ [sm_pkt_of SmPktType.kConnectReq sess] ∧
      (sm_pkt_of SmPktType.kConnectReq sess).pkt_type = SmPktType.kConnectReq ∧
      (sm_pkt_of SmPktType.kConnectReq sess).client = sess.client ∧
      (sm_pkt_of SmPktType.kConnectReq sess).server = sess.server := by
  rcases create_session_inv K s start_seq l h t r (some p) s' hc with
    ⟨hnone, _⟩ | ⟨x, hx, hp, hs', _, _, _, _, _, _, hlen⟩
  · cases hnone
  · have hp' : p = s.heap.length := (Option.some.inj hp)
    subst hp' hs'
    have hmod : s.session_vec.length % 2 ^ 32 = s.session_vec.length :=
      Nat.mod_eq_of_lt (by omega)
    refine ⟨x, create_session_object s start_seq l x t r, hx, ?_, rfl, rfl, rfl, rfl, rfl, ?_,
      rfl, rfl, rfl, ?_, ?_, ?_, ?_, ?_, rfl, rfl, rfl, rfl⟩
    · rw [deref_eq_some_iff]
      simp [create_session_post]
    · show some (s.session_vec.length % 2 ^ 32) = some s.session_vec.length
      rw [hmod]
    · simp [create_session_post]
    · simp [create_session_post]
    · intro i hi
      simp [create_session_post, List.getElem?_append_left hi]
    · intro q y hq
      have hlt := deref_lt s q y hq
      rw [deref_eq_some_iff] at hq ⊢
      simp [create_session_post, List.getElem?_append_left hlt, hq]
    · simp [is_in_flight, create_session_post]

/-- The theorem `create_session_success` applied to the first call on an empty
table. -/
theorem create_session_success_witness :
    ∃ (x : String) (sess : Session), some "b" = some x ∧
      (create_session_post rpc0 (session0 SessionState.kConnectInProgress)).deref 0
        = some sess ∧
      sess.role = Role.kClient ∧ sess.state = SessionState.kConnectInProgress ∧
      sess.client.hostname = rpc0.hostname ∧ sess.client.app_tid = rpc0.app_tid ∧
      sess.client.fdev_port_index = 0 ∧
      sess.client.session_num = some rpc0.session_vec.length ∧
      sess.server.hostname = x ∧ sess.server.app_tid = 1 ∧
      sess.server.fdev_port_index = 0 ∧
      (create_session_post rpc0 (session0 SessionState.kConnectInProgress)).session_vec.length
        = rpc0.session_vec.length + 1 ∧
      (create_session_post rpc0
        (session0 SessionState.kConnectInProgress)).session_vec[rpc0.session_vec.length]?
        = some (some 0) ∧
      (∀ i : Nat, i < rpc0.session_vec.length →
        (create_session_post rpc0 (session0 SessionState.kConnectInProgress)).session_vec[i]?
          = rpc0.session_vec[i]?) ∧
      (∀ (q : SessionPtr) (y : Session), rpc0.deref q = some y →
        (create_session_post rpc0 (session0 SessionState.kConnectInProgress)).deref q
          = some y) ∧
      is_in_flight (create_session_post rpc0 (session0 SessionState.kConnectInProgress)) 0
        = true ∧
      (create_session_post rpc0 (session0 SessionState.kConnectInProgress)).sent
        = rpc0.sent ++ [sm_pkt_of SmPktType.kConnectReq sess] ∧
      (sm_pkt_of SmPktType.kConnectReq sess).pkt_type = SmPktType.kConnectReq ∧
      (sm_pkt_of SmPktType.kConnectReq sess).client = sess.client ∧
      (sm_pkt_of SmPktType.kConnectReq sess).server = sess.server :=
  create_session_success K0 rpc0 5 0 (some "b") 1 0 0
    (create_session_post rpc0 (session0 SessionState.kConnectInProgress)) (by decide) rfl

/-- C5: whenever `create_session` returns null, the `Rpc` after the call is the
`Rpc` before it; in particular the session table, the in-flight registry and
the packets handed to the control transport are what they were. -/
theorem create_session_null_unchanged (K : Constants) (s : Rpc) (start_seq l : Nat)
    (h : Option String) (t r : Nat) (s' : Rpc)
    (hc : create_session K s start_seq l h t r = Except.ok (none, s')) :
    s' = s ∧ s'.session_vec = s.session_vec ∧ s'.in_flight_vec = s.in_flight_vec ∧
      s'.sent = s.sent := by
  rcases create_session_inv K s start_seq l h t r none s' hc with
    ⟨_, hs⟩ | ⟨x, _, hp, _⟩
  · subst hs
    exact ⟨rfl, rfl, rfl, rfl⟩
  · cases hp

/-- The theorem `create_session_null_unchanged` applied to a second request for
the endpoint of an existing session. -/
theorem create_session_null_unchanged_witness :
    create_session K0 (rpc1 SessionState.kConnectInProgress true) 6 0 (some "b") 1 0
      = Except.ok (none, rpc1 SessionState.kConnectInProgress true) ∧
    (rpc1 SessionState.kConnectInProgress true).sent
      = [sm_pkt_of SmPktType.kConnectReq (session0 SessionState.kConnectInProgress)] :=
  ⟨rfl,
    (create_session_null_unchanged K0 (rpc1 SessionState.kConnectInProgress true) 6 0
      (some "b") 1 0 (rpc1 SessionState.kConnectInProgress true) rfl).2.2.2⟩

/-- C3: from an empty session table, every sequence of `create_session` calls
returns and ends in a table in which no two distinct non-empty slots hold
sessions with the same server hostname and server id; and in the table reached a
`create_session` call for the (hostname, id) of a session held in a non-empty
slot returns null and leaves the `Rpc` unchanged. -/
theorem create_session_no_duplicates (K : Constants) (s0 : Rpc) (calls : List Call)
    (h0 : s0.session_vec = []) (hc : calls.all Call.is_create = true) :
    ∃ s n, run K s0 calls = Except.ok (s, n) ∧ NoDupServers s ∧
      ∀ (start_seq l : Nat) (h : Option String) (t r : Nat), has_session_to s h t →
        create_session K s start_seq l h t r = Except.ok (none, s) := by
  have hv0 : table_valid s0 = true := by
    unfold table_valid
    rw [h0]
    rfl
  have hn0 : NoDupServers s0 := by
    intro i j p1 p2 x1 x2 hi
    rw [h0] at hi
    simp at hi
  obtain ⟨s, n, hrun, hv, hn⟩ := run_creates K calls s0 hc hv0 hn0
  refine ⟨s, n, hrun, hn, ?_⟩
  intro q l h t r hhas
  rcases create_session_total K s q l h t r hv with ⟨_, hnull⟩ | ⟨hrej, _⟩
  · exact hnull
  · exact absurd (Or.inr (Or.inr (Or.inr (Or.inr (Or.inr (Or.inl hhas)))))) hrej

/-- The theorem `create_session_no_duplicates` applied to three calls, the
second of which asks for the endpoint of the first. -/
theorem create_session_no_duplicates_witness :
    ∃ s n, run K0 rpc0
        [Call.create 5 0 (some "b") 1 0, Call.create 6 0 (some "b") 1 1,
          Call.create 7 0 (some "c") 2 0] = Except.ok (s, n) ∧ NoDupServers s ∧
      ∀ (start_seq l : Nat) (h : Option String) (t r : Nat), has_session_to s h t →
        create_session K0 s start_seq l h t r = Except.ok (none, s) :=
  create_session_no_duplicates K0 rpc0
    [Call.create 5 0 (some "b") 1 0, Call.create 6 0 (some "b") 1 1,
      Call.create 7 0 (some "c") 2 0] rfl (by decide)

/-- C4: from an empty session table, after every sequence of `create_session`
and `destroy_session` calls the length of the table is the number of
`create_session` calls that returned a session and is at most
`kMaxSessionsPerThread`; once `kMaxSessionsPerThread` calls have returned a
session, every further `create_session` call returns null. -/
theorem session_table_bounded (K : Constants) (s0 : Rpc) (calls : List Call) (s : Rpc)
    (n : Nat) (h0 : s0.session_vec = []) (hrun : run K s0 calls = Except.ok (s, n)) :
    s.session_vec.length ≤ K.kMaxSessionsPerThread ∧ s.session_vec.length = n ∧
      (n = K.kMaxSessionsPerThread →
        ∀ (start_seq l : Nat) (h : Option String) (t r : Nat),
          create_session K s start_seq l h t r = Except.ok (none, s)) := by
  have hp0 : table_pending s0 = true := by
    unfold table_pending
    rw [h0]
    rfl
  have hl0 : s0.session_vec.length = 0 := by rw [h0]; rfl
  obtain ⟨hp, hlen, hle⟩ := run_pending K calls s0 s n hp0 (by omega) hrun
  refine ⟨hle, by omega, ?_⟩
  intro hn q l h t r
  rcases create_session_total K s q l h t r (table_pending_valid s hp) with
    ⟨_, hnull⟩ | ⟨hrej, _⟩
  · exact hnull
  · refine absurd (Or.inr (Or.inr (Or.inr (Or.inr (Or.inr (Or.inr ?_)))))) hrej
    show s.session_vec.length ≥ K.kMaxSessionsPerThread
    omega

/-- The theorem `session_table_bounded` applied to a run that creates a
session, destroys it twice and creates a second one, with a bound of two. -/
theorem session_table_bounded_witness :
    ∃ s, run K0 rpc0
        [Call.create 5 0 (some "b") 1 0, Call.destroy (some 0), Call.destroy (some 0),
          Call.create 7 0 (some "c") 2 0] = Except.ok (s, 2) ∧
      s.session_vec.length ≤ K0.kMaxSessionsPerThread ∧ s.session_vec.length = 2 ∧
      (2 = K0.kMaxSessionsPerThread →
        ∀ (start_seq l : Nat) (h : Option String) (t r : Nat),
          create_session K0 s start_seq l h t r = Except.ok (none, s)) :=
  ⟨_, rfl,
    session_table_bounded K0 rpc0
      [Call.create 5 0 (some "b") 1 0, Call.destroy (some 0), Call.destroy (some 0),
        Call.create 7 0 (some "c") 2 0] _ 2 rfl rfl⟩

/-! ## Results on `destroy_session` -/

/-- C6: `destroy_session` on a managed, live, client-role session (in flight
when the asserts of its state require it) returns in each of the five states.
From `kConnectInProgress`, `kConnected` and `kDisconnectInProgress` the session
ends in `kDisconnectInProgress` with all other fields as before; from
`kDisconnected` and `kError` it is released.  No returning call of
`destroy_session` leaves a session in `kConnected`, `kDisconnected` or `kError`
that was not already that same session before the call. -/
theorem destroy_session_transition (s : Rpc) (p : SessionPtr) (sess : Session)
    (hd : s.deref p = some sess) (hm : is_session_managed s p = true)
    (hr : sess.role = Role.kClient)
    (hf : sess.state = SessionState.kConnectInProgress ∨
      sess.state = SessionState.kDisconnectInProgress → is_in_flight s p = true) :
    (∃ s', destroy_session s (some p) = Except.ok s' ∧
      (sess.state = SessionState.kConnectInProgress ∨ sess.state = SessionState.kConnected ∨
        sess.state = SessionState.kDisconnectInProgress →
        s'.deref p = some { sess with state := SessionState.kDisconnectInProgress }) ∧
      (sess.state = SessionState.kDisconnected ∨ sess.state = SessionState.kError →
        s'.deref p = none ∧ s' = s.delete p)) ∧
    (∀ (session : Option SessionPtr) (s' : Rpc) (q : SessionPtr) (x : Session),
      destroy_session s session = Except.ok s' → s'.deref q = some x →
      x.state = SessionState.kConnected ∨ x.state = SessionState.kDisconnected ∨
        x.state = SessionState.kError →
      s.deref q = some x) := by
  constructor
  · have hd0 : (remove_from_in_flight s p).deref p = some sess := hd
    rw [destroy_session_eq s p sess hd hm hr]
    cases hs : sess.state
    · simp only [hf (Or.inl hs), if_true]
      refine ⟨_, rfl, fun _ => deref_destroy_post_self _ p sess sess hd0, ?_⟩
      rintro (c | c) <;> cases c
    · refine ⟨_, rfl, fun _ => deref_destroy_post_self _ p sess sess hd, ?_⟩
      rintro (c | c) <;> cases c
    · simp only [hf (Or.inr hs), if_true]
      refine ⟨_, rfl, fun _ => ?_, ?_⟩
      · simp only [hd]
        cases sess
        simp only at hs
        rw [hs]
      · rintro (c | c) <;> cases c
    · refine ⟨_, rfl, ?_, fun _ => ⟨deref_delete_self s p sess hd, rfl⟩⟩
      rintro (c | c | c) <;> cases c
    · refine ⟨_, rfl, ?_, fun _ => ⟨deref_delete_self s p sess hd, rfl⟩⟩
      rintro (c | c | c) <;> cases c
  · intro session s' q x hc hq hx
    obtain ⟨p', sess', hp, hd', _, _⟩ := destroy_session_inv s session s' hc
    subst hp
    obtain ⟨hframe, hself⟩ := destroy_session_heap s p' sess' s' hd' hc
    by_cases hqp : q = p'
    · subst hqp
      rcases hself with hnone | hdip
      · rw [hnone] at hq; cases hq
      · rw [hdip] at hq
        cases hq
        rcases hx with c | c | c <;> cases c
    · rw [← hframe q hqp]
      exact hq

/-- The theorem `destroy_session_transition` applied to a connected session. -/
theorem destroy_session_transition_witness :
    ∃ s', destroy_session (rpc1 SessionState.kConnected false) (some 0) = Except.ok s' ∧
      (SessionState.kConnected = SessionState.kConnectInProgress ∨
        SessionState.kConnected = SessionState.kConnected ∨
        SessionState.kConnected = SessionState.kDisconnectInProgress →
        s'.deref 0 = some (session0 SessionState.kDisconnectInProgress)) ∧
      (SessionState.kConnected = SessionState.kDisconnected ∨
        SessionState.kConnected = SessionState.kError →
        s'.deref 0 = none ∧ s' = (rpc1 SessionState.kConnected false).delete 0) :=
  (destroy_session_transition (rpc1 SessionState.kConnected false) 0
    (session0 SessionState.kConnected) rfl (by decide) rfl (by decide)).1

/-- C7: for a managed, live, client-role session that is in state
`kConnectInProgress` and in flight, or in state `kConnected` and not in flight,
`destroy_session` returns, the session is then in the in-flight registry exactly
once, and the packets sent are those before the call followed by exactly one
packet, the `DisconnectReq` carrying the metadata of that session. -/
theorem destroy_session_sends_one (s : Rpc) (p : SessionPtr) (sess : Session)
    (hd : s.deref p = some sess) (hm : is_session_managed s p = true)
    (hr : sess.role = Role.kClient)
    (hst : (sess.state = SessionState.kConnectInProgress ∧ is_in_flight s p = true) ∨
      (sess.state = SessionState.kConnected ∧ is_in_flight s p = false)) :
    ∃ (s' : Rpc) (pkt : SmPkt), destroy_session s (some p) = Except.ok s' ∧
      s'.in_flight_vec.count p = 1 ∧
      s'.sent = s.sent ++ [pkt] ∧
      pkt.pkt_type = SmPktType.kDisconnectReq ∧
      pkt.client = sess.client ∧ pkt.server = sess.server := by
  rw [destroy_session_eq s p sess hd hm hr]
  rcases hst with ⟨hs, hfl⟩ | ⟨hs, hfl⟩
  · rw [hs]
    simp only [hfl, if_true]
    exact ⟨_, _, rfl, count_filter_ne_append s.in_flight_vec p, rfl, rfl, rfl, rfl⟩
  · rw [hs]
    refine ⟨_, _, rfl, ?_, rfl, rfl, rfl, rfl⟩
    have hnot : p ∉ s.in_flight_vec := by
      intro hmem
      simp [is_in_flight, hmem] at hfl
    show (s.in_flight_vec ++ [p]).count p = 1
    rw [List.count_append, List.count_eq_zero_of_not_mem hnot]
    simp

/-- The theorem `destroy_session_sends_one` applied to a session whose connect
request is in flight. -/
theorem destroy_session_sends_one_witness :
    ∃ (s' : Rpc) (pkt : SmPkt),
      destroy_session (rpc1 SessionState.kConnectInProgress true) (some 0) = Except.ok s' ∧
      s'.in_flight_vec.count 0 = 1 ∧
      s'.sent = (rpc1 SessionState.kConnectInProgress true).sent ++ [pkt] ∧
      pkt.pkt_type = SmPktType.kDisconnectReq ∧
      pkt.client = (session0 SessionState.kConnectInProgress).client ∧
      pkt.server = (session0 SessionState.kConnectInProgress).server :=
  destroy_session_sends_one (rpc1 SessionState.kConnectInProgress true) 0
    (session0 SessionState.kConnectInProgress) rfl (by decide) rfl
    (Or.inl ⟨rfl, by decide⟩)

/-- C8: on a managed, live, client-role session in state `kConnected`, a first
`destroy_session` call appends exactly one `DisconnectReq` to the packets sent
and a second call right after it returns the `Rpc` it was given, so nothing
more is sent and nothing changes.  On a session in state
`kDisconnectInProgress` a call of `destroy_session` that returns leaves the
`Rpc` as it was, and it does return when the session is in flight. -/
theorem destroy_session_twice (s : Rpc) (p : SessionPtr) (sess : Session)
    (hd : s.deref p = some sess) (hm : is_session_managed s p = true)
    (hr : sess.role = Role.kClient) :
    (sess.state = SessionState.kConnected →
      ∃ s1, destroy_session s (some p) = Except.ok s1 ∧
        destroy_session s1 (some p) = Except.ok s1 ∧
        s1.sent = s.sent ++ [sm_pkt_of SmPktType.kDisconnectReq
          { sess with state := SessionState.kDisconnectInProgress }]) ∧
    (sess.state = SessionState.kDisconnectInProgress →
      (is_in_flight s p = true → destroy_session s (some p) = Except.ok s) ∧
      (∀ s', destroy_session s (some p) = Except.ok s' → s' = s)) := by
  constructor
  · intro hs
    refine ⟨destroy_session_post s p sess, ?_, ?_, rfl⟩
    · rw [destroy_session_eq s p sess hd hm hr, hs]
    · have hd1 := deref_destroy_post_self s p sess sess hd
      have hm1 : is_session_managed (destroy_session_post s p sess) p = true := hm
      have hf1 : is_in_flight (destroy_session_post s p sess) p = true := by
        simp [is_in_flight, destroy_session_post]
      rw [destroy_session_eq _ p _ hd1 hm1 hr]
      simp only [hf1, if_true]
  · intro hs
    rw [destroy_session_eq s p sess hd hm hr, hs]
    constructor
    · intro hfl
      simp only [hfl, if_true]
    · intro s' h
      simp only at h
      split at h
      · cases h; rfl
      · cases h

/-- The theorem `destroy_session_twice` applied to a connected session. -/
theorem destroy_session_twice_witness :
    ∃ s1, destroy_session (rpc1 SessionState.kConnected false) (some 0) = Except.ok s1 ∧
      destroy_session s1 (some 0) = Except.ok s1 ∧
      s1.sent = (rpc1 SessionState.kConnected false).sent ++
        [sm_pkt_of SmPktType.kDisconnectReq (session0 SessionState.kDisconnectInProgress)] :=
  (destroy_session_twice (rpc1 SessionState.kConnected false) 0
    (session0 SessionState.kConnected) rfl (by decide) rfl).1 rfl

/-- C9: on a managed, live, client-role session (in flight when the asserts of
its state require it) `destroy_session` returns, and the session is released
if and only if its state was `kDisconnected` or `kError`; in that case the
packets sent and the in-flight registry are what they were. -/
theorem destroy_session_release_iff (s : Rpc) (p : SessionPtr) (sess : Session)
    (hd : s.deref p = some sess) (hm : is_session_managed s p = true)
    (hr : sess.role = Role.kClient)
    (hf : sess.state = SessionState.kConnectInProgress ∨
      sess.state = SessionState.kDisconnectInProgress → is_in_flight s p = true) :
    ∃ s', destroy_session s (some p) = Except.ok s' ∧
      (s'.deref p = none ↔
        sess.state = SessionState.kDisconnected ∨ sess.state = SessionState.kError) ∧
      (sess.state = SessionState.kDisconnected ∨ sess.state = SessionState.kError →
        s'.sent = s.sent ∧ s'.in_flight_vec = s.in_flight_vec) := by
  have hd0 : (remove_from_in_flight s p).deref p = some sess := hd
  rw [destroy_session_eq s p sess hd hm hr]
  cases hs : sess.state
  · simp only [hf (Or.inl hs), if_true]
    refine ⟨_, rfl, ?_, ?_⟩
    · rw [deref_destroy_post_self _ p sess sess hd0]
      simp
    · rintro (c | c) <;> cases c
  · refine ⟨_, rfl, ?_, ?_⟩
    · rw [deref_destroy_post_self _ p sess sess hd]
      simp
    · rintro (c | c) <;> cases c
  · simp only [hf (Or.inr hs), if_true]
    refine ⟨_, rfl, ?_, ?_⟩
    · simp only [hd]
      simp
    · rintro (c | c) <;> cases c
  · refine ⟨_, rfl, ?_, fun _ => ⟨rfl, rfl⟩⟩
    simp [deref_delete_self s p sess hd]
  · refine ⟨_, rfl, ?_, fun _ => ⟨rfl, rfl⟩⟩
    simp [deref_delete_self s p sess hd]

/-- The theorem `destroy_session_release_iff` applied to a session in state
`kError`. -/
theorem destroy_session_release_iff_witness :
    ∃ s', destroy_session (rpc1 SessionState.kError false) (some 0) = Except.ok s' ∧
      (s'.deref 0 = none ↔
        SessionState.kError = SessionState.kDisconnected ∨
          SessionState.kError = SessionState.kError) ∧
      (SessionState.kError = SessionState.kDisconnected ∨
          SessionState.kError = SessionState.kError →
        s'.sent = (rpc1 SessionState.kError false).sent ∧
          s'.in_flight_vec = (rpc1 SessionState.kError false).in_flight_vec) :=
  destroy_session_release_iff (rpc1 SessionState.kError false) 0
    (session0 SessionState.kError) rfl (by decide) rfl (by decide)

/-- C10: `destroy_session` on the disconnected session held in slot 0 returns
after releasing the session, and slot 0 of the table still holds the pointer to
the released object instead of being empty; the scan of the next
`create_session` call then reads through that pointer. -/
theorem destroy_session_slot_not_cleared :
    ∃ s', destroy_session (rpc1 SessionState.kDisconnected false) (some 0) = Except.ok s' ∧
      s'.session_vec[0]? = some (some 0) ∧ s'.session_vec[0]? ≠ some none ∧
      s'.deref 0 = none ∧
      create_session K0 s' 6 0 (some "c") 2 0 = Except.error Fault.invalid_pointer :=
  ⟨(rpc1 SessionState.kDisconnected false).delete 0, rfl, rfl, by decide, rfl, rfl⟩

/-! ## Frame properties and invariants of the two calls -/

/-- A scan that reaches the end of the table has read every non-empty slot: each
holds a live session, none of which matches the request. -/
theorem create_session_scan_false (s : Rpc) (h : String) (t : Nat) :
    ∀ l : List (Option SessionPtr), create_session_scan s h t l = Except.ok false →
      ∀ p : SessionPtr, some p ∈ l → ∃ sess, s.deref p = some sess ∧
        ¬ (sess.server.hostname = h ∧ sess.server.app_tid = t) := by
  intro l
  induction l with
  | nil => intro _ p hp; cases hp
  | cons slot rest ih =>
    intro hscan p hp
    cases slot with
    | none =>
      have hrest : create_session_scan s h t rest = Except.ok false := by
        simpa [create_session_scan] using hscan
      rcases List.mem_cons.1 hp with heq | hmem
      · cases heq
      · exact ih hrest p hmem
    | some q =>
      cases hd : s.deref q with
      | none => simp [create_session_scan, hd] at hscan
      | some sess =>
        by_cases hm : sess.server.hostname = h ∧ sess.server.app_tid = t
        · by_cases hc : sess.role = Role.kClient
          · simp [create_session_scan, hd, hm, hc] at hscan
          · simp [create_session_scan, hd, hm, hc] at hscan
        · have hrest : create_session_scan s h t rest = Except.ok false := by
            simpa [create_session_scan, hd, hm] using hscan
          rcases List.mem_cons.1 hp with heq | hmem
          · have hpq : p = q := Option.some.inj heq
            subst hpq
            exact ⟨sess, hd, hm⟩
          · exact ih hrest p hmem

/-- A returning `create_session` call leaves the object behind every pointer of
the table as it was. -/
theorem create_session_deref (K : Constants) (s : Rpc) (q l : Nat) (h : Option String)
    (t r : Nat) (ret : Option SessionPtr) (s' : Rpc)
    (hc : create_session K s q l h t r = Except.ok (ret, s')) :
    ∀ p : SessionPtr, some p ∈ s.session_vec → s'.deref p = s.deref p := by
  intro p hp
  rcases create_session_inv K s q l h t r ret s' hc with
    ⟨_, hs⟩ | ⟨x, _, _, hs, _, _, _, _, _, hscan, _⟩
  · rw [hs]
  · obtain ⟨sess, hd, _⟩ := create_session_scan_false s x t _ hscan p hp
    rw [hs, hd]
    exact deref_create_post_old s _ sess p hd

/-- A returning `create_session` call leaves the first slots of the table as
they were. -/
theorem create_session_slots (K : Constants) (s : Rpc) (q l : Nat) (h : Option String)
    (t r : Nat) (ret : Option SessionPtr) (s' : Rpc)
    (hc : create_session K s q l h t r = Except.ok (ret, s')) :
    ∀ i : Nat, i < s.session_vec.length → s'.session_vec[i]? = s.session_vec[i]? := by
  intro i hi
  rcases create_session_inv K s q l h t r ret s' hc with ⟨_, hs⟩ | ⟨x, _, _, hs, _⟩
  · rw [hs]
  · rw [hs]
    simp [create_session_post, List.getElem?_append_left hi]

/-- C11: `destroy_session` returns for a managed, live, client-role session in
each state (in flight when the asserts of its state require it); every
returning call leaves the length of the session table and the pointer in every
slot as they were, and the session behind every slot that does not hold the
given pointer is exactly what it was.  Every returning `create_session` call
leaves each existing slot with its pointer and with the session behind it. -/
theorem index_stability (K : Constants) (s : Rpc) :
    (∀ (p : SessionPtr) (sess : Session), s.deref p = some sess →
      is_session_managed s p = true → sess.role = Role.kClient →
      (sess.state = SessionState.kConnectInProgress ∨
        sess.state = SessionState.kDisconnectInProgress → is_in_flight s p = true) →
      ∃ s', destroy_session s (some p) = Except.ok s') ∧
    (∀ (session : Option SessionPtr) (s' : Rpc), destroy_session s session = Except.ok s' →
      s'.session_vec.length = s.session_vec.length ∧
      (∀ i : Nat, s'.session_vec[i]? = s.session_vec[i]?) ∧
      (∀ (i : Nat) (q : SessionPtr), s.session_vec[i]? = some (some q) → some q ≠ session →
        s'.deref q = s.deref q)) ∧
    (∀ (start_seq l : Nat) (h : Option String) (t r : Nat) (ret : Option SessionPtr)
      (s' : Rpc), create_session K s start_seq l h t r = Except.ok (ret, s') →
      (∀ i : Nat, i < s.session_vec.length → s'.session_vec[i]? = s.session_vec[i]?) ∧
      (∀ (i : Nat) (q : SessionPtr), s.session_vec[i]? = some (some q) →
        s'.deref q = s.deref q)) := by
  refine ⟨?_, ?_, ?_⟩
  · intro p sess hd hm hr hf
    rw [destroy_session_eq s p sess hd hm hr]
    cases hs : sess.state
    · simp only [hf (Or.inl hs), if_true]; exact ⟨_, rfl⟩
    · exact ⟨_, rfl⟩
    · simp only [hf (Or.inr hs), if_true]; exact ⟨_, rfl⟩
    · exact ⟨_, rfl⟩
    · exact ⟨_, rfl⟩
  · intro session s' hc
    have hvec := destroy_session_session_vec s session s' hc
    obtain ⟨p, sess, hses, hd, _, _⟩ := destroy_session_inv s session s' hc
    subst hses
    obtain ⟨hframe, _⟩ := destroy_session_heap s p sess s' hd hc
    refine ⟨by rw [hvec], fun i => by rw [hvec], ?_⟩
    intro i q _ hne
    exact hframe q (fun hqp => hne (congrArg some hqp))
  · intro q l h t r ret s' hc
    refine ⟨create_session_slots K s q l h t r ret s' hc, ?_⟩
    intro i p hi
    exact create_session_deref K s q l h t r ret s' hc p (List.mem_iff_getElem?.2 ⟨i, hi⟩)

/-- The theorem `index_stability` applied to the destruction of the
disconnected session in slot 0 of a table of two sessions: slot 1 and the
session behind it are as before. -/
theorem index_stability_witness :
    ∃ s', destroy_session rpc2 (some 0) = Except.ok s' ∧
      s'.session_vec.length = rpc2.session_vec.length ∧
      s'.session_vec[1]? = rpc2.session_vec[1]? ∧ s'.deref 1 = rpc2.deref 1 :=
  ⟨rpc2.delete 0, rfl,
    ((index_stability K0 rpc2).2.1 (some 0) (rpc2.delete 0) rfl).1,
    ((index_stability K0 rpc2).2.1 (some 0) (rpc2.delete 0) rfl).2.1 1,
    ((index_stability K0 rpc2).2.1 (some 0) (rpc2.delete 0) rfl).2.2 1 1 rfl (by decide)⟩

theorem deref_create_post_inv (s : Rpc) (obj x : Session) (p : SessionPtr)
    (h : (create_session_post s obj).deref p = some x) (hne : p ≠ s.heap.length) :
    s.deref p = some x := by
  rw [deref_eq_some_iff] at h ⊢
  have hheap : (create_session_post s obj).heap = s.heap ++ [some obj] := rfl
  rw [hheap] at h
  by_cases hlt : p < s.heap.length
  · rw [List.getElem?_append_left hlt] at h
    exact h
  · have hlt2 : s.heap.length < p :=
      Nat.lt_of_le_of_ne (Nat.le_of_not_lt hlt) (Ne.symm hne)
    have hgt : (s.heap ++ [some obj]).length ≤ p := by
      simp only [List.length_append, List.length_singleton]
      exact hlt2
    rw [List.getElem?_eq_none hgt] at h
    cases h

/-- The in-flight invariant holds after `create_session` has appended a session
in state `kConnectInProgress`. -/
theorem in_flight_inv_create_post (s : Rpc) (obj : Session) (hinv : InFlightInv s)
    (hst : obj.state = SessionState.kConnectInProgress) :
    InFlightInv (create_session_post s obj) := by
  intro p sess hp hd
  by_cases hnew : p = s.heap.length
  · subst hnew
    rw [deref_create_post_new] at hd
    cases hd
    constructor
    · intro _; exact Or.inl hst
    · intro _; simp [is_in_flight, create_session_post]
  · have hold : some p ∈ s.session_vec := by
      have hmem : some p ∈ s.session_vec ∨ p = s.heap.length := by
        simpa [create_session_post] using hp
      rcases hmem with hmem | heq
      · exact hmem
      · exact absurd heq hnew
    have hd0 := deref_create_post_inv s obj sess p hd hnew
    rw [← hinv p sess hold hd0]
    simp [is_in_flight, create_session_post, hnew]

/-- The in-flight invariant holds after the body of `case kConnected:` has run
on a state with the table and the objects of `s` in which the in-flight entries
of the other sessions are those of `s`. -/
theorem in_flight_inv_destroy_post (s s0 : Rpc) (p : SessionPtr) (sess : Session)
    (hinv : InFlightInv s) (hvec : s0.session_vec = s.session_vec)
    (hheap : s0.heap = s.heap) (hd : s.deref p = some sess)
    (hfl : ∀ q : SessionPtr, q ≠ p → (q ∈ s0.in_flight_vec ↔ q ∈ s.in_flight_vec)) :
    InFlightInv (destroy_session_post s0 p sess) := by
  have hd0 : s0.deref p = some sess := by
    unfold Rpc.deref at hd ⊢
    rw [hheap]
    exact hd
  intro q x hq hx
  by_cases hqp : q = p
  · subst hqp
    rw [deref_destroy_post_self s0 q sess sess hd0] at hx
    cases hx
    constructor
    · intro _; exact Or.inr rfl
    · intro _; simp [is_in_flight, destroy_session_post]
  · rw [deref_destroy_post_ne s0 p q sess hqp] at hx
    have hx0 : s.deref q = some x := by
      unfold Rpc.deref at hx ⊢
      rw [← hheap]
      exact hx
    have hq0 : some q ∈ s.session_vec := by
      rw [← hvec]
      exact hq
    rw [← hinv q x hq0 hx0]
    have := hfl q hqp
    simp [is_in_flight, destroy_session_post, hqp, this]

/-- C12: the in-flight invariant holds for the empty table, and it holds after
every returning `create_session` call and after every returning
`destroy_session` call (a call on a managed client-role session) made in a
state in which it holds. -/
theorem in_flight_invariant (K : Constants) (s : Rpc) :
    (s.session_vec = [] → InFlightInv s) ∧
    (InFlightInv s → ∀ (start_seq l : Nat) (h : Option String) (t r : Nat)
      (ret : Option SessionPtr) (s' : Rpc),
      create_session K s start_seq l h t r = Except.ok (ret, s') → InFlightInv s') ∧
    (InFlightInv s → ∀ (session : Option SessionPtr) (s' : Rpc),
      destroy_session s session = Except.ok s' → InFlightInv s') := by
  refine ⟨?_, ?_, ?_⟩
  · intro h0 p sess hp
    rw [h0] at hp
    cases hp
  · intro hinv q l h t r ret s' hc
    rcases create_session_inv K s q l h t r ret s' hc with ⟨_, hs⟩ | ⟨x, _, _, hs, _⟩
    · rw [hs]; exact hinv
    · rw [hs]
      exact in_flight_inv_create_post s _ hinv (create_session_object_state s q l x t r)
  · intro hinv session s' hc
    obtain ⟨p, sess, hses, hd, hm, hr⟩ := destroy_session_inv s session s' hc
    subst hses
    rw [destroy_session_eq s p sess hd hm hr] at hc
    cases hs : sess.state <;> rw [hs] at hc <;> simp only at hc
    · split at hc
      · cases hc
        apply in_flight_inv_destroy_post s (remove_from_in_flight s p) p sess hinv rfl rfl hd
        intro q hqp
        simp [remove_from_in_flight, hqp]
      · cases hc
    · cases hc
      exact in_flight_inv_destroy_post s s p sess hinv rfl rfl hd (fun _ _ => Iff.rfl)
    · split at hc
      · cases hc; exact hinv
      · cases hc
    · cases hc
      intro q x hq hx
      by_cases hqp : q = p
      · subst hqp
        rw [deref_delete_self s q sess hd] at hx
        cases hx
      · rw [deref_delete_ne s p q hqp] at hx
        exact hinv q x hq hx
    · cases hc
      intro q x hq hx
      by_cases hqp : q = p
      · subst hqp
        rw [deref_delete_self s q sess hd] at hx
        cases hx
      · rw [deref_delete_ne s p q hqp] at hx
        exact hinv q x hq hx

/-- The theorem `in_flight_invariant` applied to the empty table and to the
first `create_session` call on it. -/
theorem in_flight_invariant_witness :
    InFlightInv rpc0 ∧
    InFlightInv (create_session_post rpc0 (session0 SessionState.kConnectInProgress)) :=
  ⟨(in_flight_invariant K0 rpc0).1 rfl,
    (in_flight_invariant K0 rpc0).2.1 ((in_flight_invariant K0 rpc0).1 rfl) 5 0 (some "b") 1 0
      (some 0) (create_session_post rpc0 (session0 SessionState.kConnectInProgress)) rfl⟩

theorem create_post_slot (s : Rpc) (obj : Session) (i : Nat) (p : SessionPtr)
    (hi : (create_session_post s obj).session_vec[i]? = some (some p)) :
    (i < s.session_vec.length ∧ s.session_vec[i]? = some (some p)) ∨
    (i = s.session_vec.length ∧ p = s.heap.length) := by
  have hvec : (create_session_post s obj).session_vec
      = s.session_vec ++ [some s.heap.length] := rfl
  rw [hvec] at hi
  by_cases hlt : i < s.session_vec.length
  · rw [List.getElem?_append_left hlt] at hi
    exact Or.inl ⟨hlt, hi⟩
  · have hle : s.session_vec.length ≤ i := Nat.le_of_not_lt hlt
    rw [List.getElem?_append_right hle] at hi
    have hidx : i - s.session_vec.length = 0 := by
      by_contra hne
      have h1 : 1 ≤ i - s.session_vec.length := Nat.one_le_iff_ne_zero.2 hne
      rw [List.getElem?_eq_none (by simpa using h1)] at hi
      cases hi
    rw [hidx] at hi
    have hp : p = s.heap.length := by
      simp at hi
      exact hi.symm
    exact Or.inr ⟨by omega, hp⟩

/-- C13: given `kMaxSessionsPerThread ≤ 2^32`, the predicate "every live
client-role session held in slot `i` has client session number `i`" holds for
the empty table and holds after every returning `create_session` and
`destroy_session` call made in a state in which it holds; a session returned by
`create_session` has as session number the length of the table before the
call, which the cast to 32 bits leaves unchanged. -/
theorem session_num_invariant (K : Constants) (s : Rpc)
    (hK : K.kMaxSessionsPerThread ≤ 2 ^ 32) :
    (s.session_vec = [] → SessionNumInv s) ∧
    (SessionNumInv s → ∀ (start_seq l : Nat) (h : Option String) (t r : Nat)
      (ret : Option SessionPtr) (s' : Rpc),
      create_session K s start_seq l h t r = Except.ok (ret, s') →
      SessionNumInv s' ∧
      (∀ p : SessionPtr, ret = some p →
        s.session_vec.length % 2 ^ 32 = s.session_vec.length ∧
        ∃ sess, s'.deref p = some sess ∧
          sess.client.session_num = some s.session_vec.length)) ∧
    (SessionNumInv s → ∀ (session : Option SessionPtr) (s' : Rpc),
      destroy_session s session = Except.ok s' → SessionNumInv s') := by
  refine ⟨?_, ?_, ?_⟩
  · intro h0 i p sess hi
    rw [h0] at hi
    simp at hi
  · intro hinv q l h t r ret s' hc
    have hderef := create_session_deref K s q l h t r ret s' hc
    rcases create_session_inv K s q l h t r ret s' hc with
      ⟨hret, hs⟩ | ⟨x, _, hret, hs, _, _, _, _, _, hscan, hlen⟩
    · subst hs
      refine ⟨hinv, ?_⟩
      intro p hp
      rw [hret] at hp
      cases hp
    · have hmod : s.session_vec.length % 2 ^ 32 = s.session_vec.length :=
        Nat.mod_eq_of_lt (by omega)
      have hnum : (create_session_object s q l x t r).client.session_num
          = some s.session_vec.length := by
        show some (s.session_vec.length % 2 ^ 32) = some s.session_vec.length
        rw [hmod]
      refine ⟨?_, ?_⟩
      · intro i p sess hi hd hr
        rw [hs] at hi
        rcases create_post_slot s _ i p hi with ⟨_, hi0⟩ | ⟨hieq, hp⟩
        · have hmem : some p ∈ s.session_vec := List.mem_iff_getElem?.2 ⟨i, hi0⟩
          rw [hderef p hmem] at hd
          exact hinv i p sess hi0 hd hr
        · subst hp
          rw [hs, deref_create_post_new] at hd
          cases hd
          rw [hieq]
          exact hnum
      · intro p hp
        rw [hret] at hp
        cases hp
        refine ⟨hmod, create_session_object s q l x t r, ?_, hnum⟩
        rw [hs]
        exact deref_create_post_new s _
  · intro hinv session s' hc
    have hvec := destroy_session_session_vec s session s' hc
    obtain ⟨p, sess, hses, hd, _, _⟩ := destroy_session_inv s session s' hc
    subst hses
    obtain ⟨hframe, hself⟩ := destroy_session_heap s p sess s' hd hc
    intro i q x hi hx hr
    rw [hvec] at hi
    by_cases hqp : q = p
    · subst hqp
      rcases hself with hnone | hdip
      · rw [hnone] at hx; cases hx
      · rw [hdip] at hx
        cases hx
        exact hinv i q sess hi hd hr
    · rw [hframe q hqp] at hx
      exact hinv i q x hi hx hr

/-- The theorem `session_num_invariant` applied to the empty table and to the
first `create_session` call on it. -/
theorem session_num_invariant_witness :
    SessionNumInv rpc0 ∧
    SessionNumInv (create_session_post rpc0 (session0 SessionState.kConnectInProgress)) ∧
    rpc0.session_vec.length % 2 ^ 32 = rpc0.session_vec.length :=
  ⟨(session_num_invariant K0 rpc0 (by decide)).1 rfl,
    ((session_num_invariant K0 rpc0 (by decide)).2.1
      ((session_num_invariant K0 rpc0 (by decide)).1 rfl) 5 0 (some "b") 1 0 (some 0)
      (create_session_post rpc0 (session0 SessionState.kConnectInProgress)) rfl).1,
    (((session_num_invariant K0 rpc0 (by decide)).2.1
      ((session_num_invariant K0 rpc0 (by decide)).1 rfl) 5 0 (some "b") 1 0 (some 0)
      (create_session_post rpc0 (session0 SessionState.kConnectInProgress)) rfl).2 0 rfl).1⟩

/-- C14: a returning `destroy_session` call after which the given session is
still live has left its role, its client metadata and its server metadata as
they were: the session is the one before the call with state
`kDisconnectInProgress`.  For a managed client-role session in state
`kConnectInProgress`, `kConnected` or `kDisconnectInProgress` (in flight when
the asserts require it) the call returns and the session is still live. -/
theorem destroy_session_frame (s : Rpc) (p : SessionPtr) (sess : Session)
    (hd : s.deref p = some sess) :
    (∀ (s' : Rpc) (sess' : Session), destroy_session s (some p) = Except.ok s' →
      s'.deref p = some sess' →
      sess'.role = sess.role ∧ sess'.client = sess.client ∧ sess'.server = sess.server ∧
        sess' = { sess with state := SessionState.kDisconnectInProgress }) ∧
    (is_session_managed s p = true → sess.role = Role.kClient →
      (sess.state = SessionState.kConnectInProgress ∨
        sess.state = SessionState.kDisconnectInProgress → is_in_flight s p = true) →
      (sess.state = SessionState.kConnectInProgress ∨ sess.state = SessionState.kConnected ∨
        sess.state = SessionState.kDisconnectInProgress) →
      ∃ (s' : Rpc) (sess' : Session), destroy_session s (some p) = Except.ok s' ∧
        s'.deref p = some sess') := by
  constructor
  · intro s' sess' hc hd'
    obtain ⟨_, hself⟩ := destroy_session_heap s p sess s' hd hc
    rcases hself with hnone | hdip
    · rw [hnone] at hd'; cases hd'
    · rw [hdip] at hd'
      cases hd'
      exact ⟨rfl, rfl, rfl, rfl⟩
  · intro hm hr hf hst
    have hd0 : (remove_from_in_flight s p).deref p = some sess := hd
    rw [destroy_session_eq s p sess hd hm hr]
    rcases hst with hs | hs | hs
    · rw [hs]
      simp only [hf (Or.inl hs), if_true]
      exact ⟨_, _, rfl, deref_destroy_post_self _ p sess sess hd0⟩
    · rw [hs]
      exact ⟨_, _, rfl, deref_destroy_post_self s p sess sess hd⟩
    · rw [hs]
      simp only [hf (Or.inr hs), if_true]
      exact ⟨_, _, rfl, hd⟩

/-- The theorem `destroy_session_frame` applied to a connected session. -/
theorem destroy_session_frame_witness :
    ∃ (s' : Rpc) (sess' : Session),
      destroy_session (rpc1 SessionState.kConnected false) (some 0) = Except.ok s' ∧
      s'.deref 0 = some sess' ∧
      sess'.role = (session0 SessionState.kConnected).role ∧
      sess'.client = (session0 SessionState.kConnected).client ∧
      sess'.server = (session0 SessionState.kConnected).server :=
  ⟨destroy_session_post (rpc1 SessionState.kConnected false) 0
      (session0 SessionState.kConnected),
    session0 SessionState.kDisconnectInProgress, rfl, rfl,
    ((destroy_session_frame (rpc1 SessionState.kConnected false) 0
      (session0 SessionState.kConnected) rfl).1 _ _ rfl rfl).1,
    ((destroy_session_frame (rpc1 SessionState.kConnected false) 0
      (session0 SessionState.kConnected) rfl).1 _ _ rfl rfl).2.1,
    ((destroy_session_frame (rpc1 SessionState.kConnected false) 0
      (session0 SessionState.kConnected) rfl).1 _ _ rfl rfl).2.2.1⟩

/-- The table `rpc1 st fl` satisfies the in-flight invariant when `fl` says
whether `st` is one of the two in-progress states. -/
theorem in_flight_inv_of_single (st : SessionState) (fl : Bool)
    (h : fl = (decide (st = SessionState.kConnectInProgress) ||
      decide (st = SessionState.kDisconnectInProgress))) : InFlightInv (rpc1 st fl) := by
  intro p sess hp hd
  have hp0 : p = 0 := by
    simpa [rpc1] using hp
  subst hp0
  have hsess : sess = session0 st := by
    have : (rpc1 st fl).deref 0 = some (session0 st) := rfl
    rw [this] at hd
    exact (Option.some.inj hd).symm
  subst hsess
  subst h
  cases st <;> simp [is_in_flight, rpc1, session0]

/-! ## The asserts of the two calls -/

/-- C17: for a managed, live, client-role session in a table that satisfies
the in-flight invariant, `destroy_session` returns; the session is in flight
where `is_in_flight(session)` is asserted (states `kConnectInProgress` and
`kDisconnectInProgress`), and it is not in the registry of the state in which
the body of `case kConnected:` calls `add_to_in_flight`, which is the state
after `remove_from_in_flight` for `kConnectInProgress` and the given state for
`kConnected`. -/
theorem destroy_session_asserts (s : Rpc) (p : SessionPtr) (sess : Session)
    (hinv : InFlightInv s) (hd : s.deref p = some sess)
    (hm : is_session_managed s p = true) (hr : sess.role = Role.kClient) :
    (∃ s', destroy_session s (some p) = Except.ok s') ∧
    (sess.state = SessionState.kConnectInProgress →
      is_in_flight s p = true ∧
      destroy_session s (some p)
        = destroy_session_connected (remove_from_in_flight s p) p sess ∧
      is_in_flight (remove_from_in_flight s p) p = false) ∧
    (sess.state = SessionState.kConnected →
      destroy_session s (some p) = destroy_session_connected s p sess ∧
      is_in_flight s p = false) ∧
    (sess.state = SessionState.kDisconnectInProgress → is_in_flight s p = true) := by
  have hmem : some p ∈ s.session_vec := by simpa [is_session_managed] using hm
  have hiff := hinv p sess hmem hd
  have hd0 : (remove_from_in_flight s p).deref p = some sess := hd
  have heq := destroy_session_eq s p sess hd hm hr
  refine ⟨?_, ?_, ?_, ?_⟩
  · rw [heq]
    cases hs : sess.state
    · simp only [hiff.2 (Or.inl hs), if_true]; exact ⟨_, rfl⟩
    · exact ⟨_, rfl⟩
    · simp only [hiff.2 (Or.inr hs), if_true]; exact ⟨_, rfl⟩
    · exact ⟨_, rfl⟩
    · exact ⟨_, rfl⟩
  · intro hs
    have hfl := hiff.2 (Or.inl hs)
    refine ⟨hfl, ?_, ?_⟩
    · rw [heq, hs, destroy_session_connected_eq _ p sess hd0]
      simp only [hfl, if_true]
    · simp [is_in_flight, remove_from_in_flight]
  · intro hs
    refine ⟨?_, ?_⟩
    · rw [heq, hs, destroy_session_connected_eq s p sess hd]
    · cases hfl : is_in_flight s p with
      | false => rfl
      | true =>
        rcases hiff.1 hfl with c | c
        · rw [hs] at c; cases c
        · rw [hs] at c; cases c
  · intro hs
    exact hiff.2 (Or.inr hs)

/-- The theorem `destroy_session_asserts` applied to a session whose connect
request is in flight. -/
theorem destroy_session_asserts_witness :
    (∃ s', destroy_session (rpc1 SessionState.kConnectInProgress true) (some 0)
      = Except.ok s') ∧
    is_in_flight (rpc1 SessionState.kConnectInProgress true) 0 = true ∧
    is_in_flight (remove_from_in_flight (rpc1 SessionState.kConnectInProgress true) 0) 0
      = false :=
  ⟨(destroy_session_asserts (rpc1 SessionState.kConnectInProgress true) 0
      (session0 SessionState.kConnectInProgress)
      ((in_flight_inv_of_single SessionState.kConnectInProgress true) (by decide))
      rfl (by decide) rfl).1,
    ((destroy_session_asserts (rpc1 SessionState.kConnectInProgress true) 0
      (session0 SessionState.kConnectInProgress)
      ((in_flight_inv_of_single SessionState.kConnectInProgress true) (by decide))
      rfl (by decide) rfl).2.1 rfl).1,
    ((destroy_session_asserts (rpc1 SessionState.kConnectInProgress true) 0
      (session0 SessionState.kConnectInProgress)
      ((in_flight_inv_of_single SessionState.kConnectInProgress true) (by decide))
      rfl (by decide) rfl).2.1 rfl).2.2⟩

/-- The scan does not end in a failed assert when every session of the scanned
slots that matches the request has role client. -/
theorem create_session_scan_no_assert (s : Rpc) (h : String) (t : Nat) :
    ∀ l : List (Option SessionPtr),
      (∀ (p : SessionPtr) (sess : Session), some p ∈ l → s.deref p = some sess →
        sess.server.hostname = h → sess.server.app_tid = t → sess.role = Role.kClient) →
      create_session_scan s h t l ≠ Except.error Fault.assertion_failed := by
  intro l
  induction l with
  | nil => intro _ hc; cases hc
  | cons slot rest ih =>
    intro hall
    have hrest := ih (fun p sess hp => hall p sess (List.mem_cons_of_mem _ hp))
    cases slot with
    | none => simpa [create_session_scan] using hrest
    | some q =>
      cases hd : s.deref q with
      | none => simp [create_session_scan, hd]
      | some sess =>
        by_cases hm : sess.server.hostname = h ∧ sess.server.app_tid = t
        · have hc := hall q sess (List.mem_cons_self _ _) hd hm.1 hm.2
          simp [create_session_scan, hd, hm, hc]
        · simpa [create_session_scan, hd, hm] using hrest

/-- A fault of `create_session` is a fault of its scan, run for a request that
passed the self-connection check. -/
theorem create_session_error (K : Constants) (s : Rpc) (q l : Nat) (h : Option String)
    (t r : Nat) (e : Fault) (hc : create_session K s q l h t r = Except.error e) :
    ∃ x, h = some x ∧ ¬ (x = s.hostname ∧ t = s.app_tid) ∧
      create_session_scan s x t s.session_vec = Except.error e := by
  unfold create_session at hc
  by_cases h1 : l ≥ K.kMaxFabDevPorts
  · rw [if_pos h1] at hc; cases hc
  rw [if_neg h1] at hc
  by_cases h2 : r ≥ K.kMaxFabDevPorts
  · rw [if_pos h2] at hc; cases hc
  rw [if_neg h2] at hc
  cases h3 : is_fdev_port_managed s l with
  | false => simp [h3] at hc
  | true =>
    simp only [h3, Bool.not_true, Bool.false_eq_true, if_false] at hc
    cases h with
    | none => cases hc
    | some x =>
      simp only at hc
      by_cases h4 : strlen x > K.kMaxHostnameLen
      · rw [if_pos h4] at hc; cases hc
      rw [if_neg h4] at hc
      by_cases h5 : x = s.hostname ∧ t = s.app_tid
      · rw [if_pos h5] at hc; cases hc
      rw [if_neg h5] at hc
      cases h6 : create_session_scan s x t s.session_vec with
      | error e' =>
        rw [h6] at hc
        cases hc
        exact ⟨x, rfl, h5, h6⟩
      | ok b =>
        rw [h6] at hc
        cases b with
        | true => cases hc
        | false =>
          simp only at hc
          by_cases h7 : s.session_vec.length ≥ K.kMaxSessionsPerThread
          · rw [if_pos h7] at hc; cases hc
          rw [if_neg h7] at hc
          rw [create_session_tail] at hc
          cases hc

/-- C18: when every live server-role session of the table has this `Rpc` as
its server endpoint, every live session of the table whose server hostname and
id are those of a request that passed the self-connection check has role
client, and no `create_session` call ends in a failed assert. -/
theorem create_session_role_assert (K : Constants) (s : Rpc) (hown : ServerRoleOwn s) :
    (∀ (h : String) (t : Nat) (p : SessionPtr) (sess : Session),
      ¬ (h = s.hostname ∧ t = s.app_tid) → some p ∈ s.session_vec →
      s.deref p = some sess → sess.server.hostname = h → sess.server.app_tid = t →
      sess.role = Role.kClient) ∧
    (∀ (start_seq l : Nat) (h : Option String) (t r : Nat),
      create_session K s start_seq l h t r ≠ Except.error Fault.assertion_failed) := by
  have hrole : ∀ (h : String) (t : Nat) (p : SessionPtr) (sess : Session),
      ¬ (h = s.hostname ∧ t = s.app_tid) → some p ∈ s.session_vec →
      s.deref p = some sess → sess.server.hostname = h → sess.server.app_tid = t →
      sess.role = Role.kClient := by
    intro h t p sess hself hp hd hh ht
    cases hr : sess.role with
    | kClient => rfl
    | kServer =>
      obtain ⟨h1, h2⟩ := hown p sess hp hd hr
      exact absurd ⟨hh.symm.trans h1, ht.symm.trans h2⟩ hself
  refine ⟨hrole, ?_⟩
  intro q l h t r hc
  obtain ⟨x, _, hself, hscan⟩ := create_session_error K s q l h t r _ hc
  exact create_session_scan_no_assert s x t s.session_vec
    (fun p sess hp hd hh ht => hrole x t p sess hself hp hd hh ht) hscan

/-- The `Rpc` `rpc0` holding one server-role session whose server endpoint is
`rpc0` itself satisfies `ServerRoleOwn`. -/
theorem server_role_own_rpc3 : ServerRoleOwn rpc3 := by
  intro p sess hp hd hr
  have hp0 : p = 0 := by
    simpa [rpc3] using hp
  subst hp0
  have : rpc3.deref 0 = some session3 := rfl
  rw [this] at hd
  cases hd
  exact ⟨rfl, rfl⟩

/-- The theorem `create_session_role_assert` applied to a table that holds a
server-role session. -/
theorem create_session_role_assert_witness :
    ServerRoleOwn rpc3 ∧
    create_session K0 rpc3 5 0 (some "c") 1 0 ≠ Except.error Fault.assertion_failed :=
  ⟨server_role_own_rpc3,
    (create_session_role_assert K0 rpc3 server_role_own_rpc3).2 5 0 (some "c") 1 0⟩

/-! ## Capacity of the session table -/

theorem same_client_refl (c : SessionMetadata) : same_client c c = true := by
  simp [same_client]

/-- A search that reaches the end of the table has read every non-empty slot:
each holds a live session, none of which matches the request. -/
theorem find_server_session_none (s : Rpc) (c : SessionMetadata) :
    ∀ l : List (Option SessionPtr), find_server_session s c l = Except.ok none →
      ∀ p : SessionPtr, some p ∈ l → ∃ sess, s.deref p = some sess ∧
        ¬ (sess.role = Role.kServer ∧ same_client sess.client c = true) := by
  intro l
  induction l with
  | nil => intro _ p hp; cases hp
  | cons slot rest ih =>
    intro hfind p hp
    cases slot with
    | none =>
      have hrest : find_server_session s c rest = Except.ok none := by
        simpa [find_server_session] using hfind
      rcases List.mem_cons.1 hp with heq | hmem
      · cases heq
      · exact ih hrest p hmem
    | some q =>
      cases hd : s.deref q with
      | none => simp [find_server_session, hd] at hfind
      | some sess =>
        by_cases hm : sess.role = Role.kServer ∧ same_client sess.client c = true
        · simp [find_server_session, hd, hm] at hfind
        · have hrest : find_server_session s c rest = Except.ok none := by
            simpa [find_server_session, hd, hm] using hfind
          rcases List.mem_cons.1 hp with heq | hmem
          · have hpq : p = q := Option.some.inj heq
            subst hpq
            exact ⟨sess, hd, hm⟩
          · exact ih hrest p hmem

/-- The search passes over slots that hold live sessions not matching the
request. -/
theorem find_server_session_skip (s : Rpc) (c : SessionMetadata)
    (rest : List (Option SessionPtr)) :
    ∀ l : List (Option SessionPtr),
      (∀ p : SessionPtr, some p ∈ l → ∃ sess, s.deref p = some sess ∧
        ¬ (sess.role = Role.kServer ∧ same_client sess.client c = true)) →
      find_server_session s c (l ++ rest) = find_server_session s c rest := by
  intro l
  induction l with
  | nil => intro _; rfl
  | cons slot tl ih =>
    intro hall
    have htl := ih (fun p hp => hall p (List.mem_cons_of_mem _ hp))
    cases slot with
    | none => simpa [find_server_session] using htl
    | some q =>
      obtain ⟨sess, hd, hm⟩ := hall q (List.mem_cons_self _ _)
      simpa [find_server_session, hd, hm] using htl

/-- A handled request after which the table is longer was accepted by step 2:
the search found no session, capacity remained, and the state is the one after
`accept_conn_req`. -/
theorem handle_connect_req_accepted (K : Constants) (s : Rpc) (q : Nat) (req : SmPkt)
    (s1 : Rpc) (h1 : handle_connect_req_st K s q req = Except.ok s1)
    (hnew : s1.session_vec.length = s.session_vec.length + 1) :
    find_server_session s req.client s.session_vec = Except.ok none ∧
      s1 = accept_conn_req s q req := by
  unfold handle_connect_req_st at h1
  cases hf : find_server_session s req.client s.session_vec with
  | error e => rw [hf] at h1; cases h1
  | ok found =>
    rw [hf] at h1
    cases found with
    | some sess =>
      simp only at h1
      cases h1
      simp [send_resp] at hnew
    | none =>
      simp only at h1
      split at h1
      · cases h1
        exact ⟨rfl, rfl⟩
      · cases h1
        simp [send_resp] at hnew

theorem deref_append_old (s s' : Rpc) (x : Option Session) (p : SessionPtr) (sess : Session)
    (hheap : s'.heap = s.heap ++ [x]) (hd : s.deref p = some sess) :
    s'.deref p = some sess := by
  have hlt := deref_lt s p sess hd
  rw [deref_eq_some_iff] at hd ⊢
  rw [hheap, List.getElem?_append_left hlt]
  exact hd

/-- In the state after `accept_conn_req`, reached from a state in which the
search found no session, the search finds the session just created. -/
theorem find_server_session_accepted (s : Rpc) (q : Nat) (req : SmPkt)
    (hf : find_server_session s req.client s.session_vec = Except.ok none) :
    find_server_session (accept_conn_req s q req) req.client
        (accept_conn_req s q req).session_vec
      = Except.ok (some (server_session_object s q req)) := by
  have hold := find_server_session_none s req.client _ hf
  have hvec : (accept_conn_req s q req).session_vec
      = s.session_vec ++ [some s.heap.length] := rfl
  have hnewd : (accept_conn_req s q req).deref s.heap.length
      = some (server_session_object s q req) := by
    rw [deref_eq_some_iff]
    simp [accept_conn_req]
  rw [hvec, find_server_session_skip]
  · have hmatch : (server_session_object s q req).role = Role.kServer ∧
        same_client (server_session_object s q req).client req.client = true :=
      ⟨rfl, same_client_refl req.client⟩
    simp only [find_server_session, hnewd]
    rw [if_pos hmatch]
  · intro p hp
    obtain ⟨sess, hd, hm⟩ := hold p hp
    exact ⟨sess, deref_append_old s _ _ p sess rfl hd, hm⟩

/-- C15: when `handle_connect_req_st` has accepted a connect request (a
session was appended to the table), it has sent a `ConnectResp` with no error,
and handling the same packet again returns with the session table unchanged
and sends one more packet, which is that same `ConnectResp` (in particular
with the same error type). -/
theorem handle_connect_req_idempotent (K : Constants) (s : Rpc) (start_seq : Nat)
    (req : SmPkt) (s1 : Rpc)
    (h1 : handle_connect_req_st K s start_seq req = Except.ok s1)
    (hnew : s1.session_vec.length = s.session_vec.length + 1) :
    ∃ resp1, s1.sent = s.sent ++ [resp1] ∧
      resp1.pkt_type = SmPktType.kConnectResp ∧ resp1.err_type = SmErrType.kNoError ∧
      ∀ start_seq2 : Nat, ∃ (s2 : Rpc) (resp2 : SmPkt),
        handle_connect_req_st K s1 start_seq2 req = Except.ok s2 ∧
        s2.session_vec = s1.session_vec ∧
        s2.session_vec.length = s1.session_vec.length ∧
        s2.sent = s1.sent ++ [resp2] ∧
        resp2.pkt_type = SmPktType.kConnectResp ∧
        resp2.err_type = resp1.err_type ∧ resp2 = resp1 := by
  obtain ⟨hf, hs1⟩ := handle_connect_req_accepted K s start_seq req s1 h1 hnew
  subst hs1
  refine ⟨connect_resp req SmErrType.kNoError
    (server_session_object s start_seq req).server, rfl, rfl, rfl, ?_⟩
  intro q2
  refine ⟨send_resp (accept_conn_req s start_seq req)
    (connect_resp req SmErrType.kNoError (server_session_object s start_seq req).server),
    _, ?_, rfl, rfl, rfl, rfl, rfl, rfl⟩
  unfold handle_connect_req_st
  rw [find_server_session_accepted s start_seq req hf]

/-- The theorem `handle_connect_req_idempotent` applied to the first request of
a client to a server with an empty table. -/
theorem handle_connect_req_idempotent_witness :
    ∃ resp1, rpc0_accepted.sent = rpc0.sent ++ [resp1] ∧
      resp1.pkt_type = SmPktType.kConnectResp ∧ resp1.err_type = SmErrType.kNoError ∧
      ∀ start_seq2 : Nat, ∃ (s2 : Rpc) (resp2 : SmPkt),
        handle_connect_req_st K0 rpc0_accepted start_seq2 conn_req3 = Except.ok s2 ∧
        s2.session_vec = rpc0_accepted.session_vec ∧
        s2.session_vec.length = rpc0_accepted.session_vec.length ∧
        s2.sent = rpc0_accepted.sent ++ [resp2] ∧
        resp2.pkt_type = SmPktType.kConnectResp ∧
        resp2.err_type = resp1.err_type ∧ resp2 = resp1 :=
  handle_connect_req_idempotent K0 rpc0 8 conn_req3 rpc0_accepted rfl rfl

end ERpc

